import Mathlib

/-!
Shallow embedding of the variable-resolution engine and the two validators of
the `templates` repository:

* `src/build-scripts/helpers.ts` — generator helpers (`generateRandomDomain`,
  `generateBase64`, `generatePassword`, `generateHash`, `generateJwt`),
  `processValue` (per-string expression resolution) and `processVariables`
  (the two-pass variable-map resolution);
* `src/unnamed/part_000` — the `TemplateValidator` (template.toml /
  docker-compose consistency checker);
* `src/build-scripts/validate-docker-compose.ts` — the
  `DockerComposeValidator`.

Host facilities the scripts use (Node `crypto.randomBytes`, `Math.random`,
`crypto.randomUUID`, `Date.now`, `new Date(string)`, `JSON.parse`) are
modelled by an explicit environment record `Env`; every theorem quantifies
over the environment, so results hold for every behaviour of the host
primitives.  Strings are modelled by Lean `String` (the inputs of interest
are ASCII), JavaScript objects by insertion-ordered association lists.
-/

namespace Templates

/-- JavaScript whitespace for `Number.parseInt` / `trimStart`. -/
def isJsWs (c : Char) : Bool :=
  c = ' ' || c = '\t' || c = '\n' || c = '\r'

/-- Digit-string to `Nat` (decimal), as `Number.parseInt` reads a digit run. -/
def digitsToNat (l : List Char) : Nat :=
  l.foldl (fun acc c => acc * 10 + (c.toNat - '0'.toNat)) 0

/-- The leading decimal-digit run of a character list; `none` when it is
empty (which `Number.parseInt` reports as `NaN`). -/
def digitsLead (l : List Char) : Option Nat :=
  let d := l.takeWhile Char.isDigit
  if d = [] then none else some (digitsToNat d)

/-- `Number.parseInt(s, 10)`: skip whitespace, optional sign, then the leading
decimal-digit run; `none` models `NaN`. -/
def parseIntChars (l : List Char) : Option Int :=
  let m := l.dropWhile isJsWs
  if m.head? = some '-' then (digitsLead m.tail).map (fun n => -(n : Int))
  else if m.head? = some '+' then (digitsLead m.tail).map (fun n => (n : Int))
  else (digitsLead m).map (fun n => (n : Int))

/-- `Number.parseInt(s, 10)` on a `String`. -/
def parseIntJS (s : String) : Option Int :=
  parseIntChars s.data

/-- `String.prototype.split(c)` on character lists (delimiters removed,
empty components preserved). -/
def splitCh (c : Char) : List Char → List (List Char)
  | [] => [[]]
  | a :: rest =>
    if a = c then [] :: splitCh c rest
    else
      match splitCh c rest with
      | [] => [[a]]
      | h :: t => (a :: h) :: t

/-- `s.split(":")`. -/
def splitColonStr (s : String) : List String :=
  (splitCh ':' s.data).map (fun l => ⟨l⟩)

/-- `parts.join(":")`. -/
def joinColon (parts : List String) : String :=
  String.intercalate ":" parts

/-- `s.startsWith(p)`. -/
def jsStartsWith (s p : String) : Bool :=
  p.data.isPrefixOf s.data

/-- Is `sub` a contiguous sublist of `l` (JavaScript `includes`)? -/
def subInfix (sub : List Char) : List Char → Bool
  | [] => sub.isPrefixOf []
  | l@(_ :: rest) => sub.isPrefixOf l || subInfix sub rest

/-- `s.includes(sub)`. -/
def jsIncludes (s sub : String) : Bool :=
  subInfix sub.data s.data

/-- `s.toLowerCase()` (ASCII). -/
def jsToLower (s : String) : String :=
  ⟨s.data.map Char.toLower⟩

/-- `s.slice(0, n)` / `String.prototype.slice` with non-negative bound. -/
def jsTake (n : Nat) (s : String) : String :=
  ⟨s.data.take n⟩

/-- First-`'}'` split: `breakAtBrace l = some (body, after)` when `l`
contains a `'}'`, with `body` the characters before the first `'}'` and
`after` the characters after it. -/
def breakAtBrace : List Char → Option (List Char × List Char)
  | [] => none
  | c :: rest =>
    if c = '\x7d' then some ([], rest)
    else (breakAtBrace rest).map (fun p => (c :: p.1, p.2))

/-- Match attempt of `/\$\x7b([^\x7d]+)\x7d/` at the start of `l`:
`some (body, after)` when `l` begins with `"$\x7b"`, a non-empty
brace-free `body` and `'\x7d'`, with `after` the remainder. -/
def matchExprAt (l : List Char) : Option (List Char × List Char) :=
  match l with
  | c1 :: c2 :: rest =>
    if c1 = '$' ∧ c2 = '\x7b' then
      match breakAtBrace rest with
      | some (body, after) => if body = [] then none else some (body, after)
      | none => none
    else none
  | _ => none

/-- The global-regex replace `value.replace(/\$\x7b([^\x7d]+)\x7d/g, f)`:
scan left to right; on a match hand the body to `f` and resume after the
closing brace; on a failed match emit one character and advance, exactly
as the regex engine does.  `fuel` bounds the recursion; callers supply
`l.length + 1`, which is always sufficient, and exhausted fuel returns
the input unchanged. -/
def goRepl (f : String → String) : Nat → List Char → List Char
  | 0, l => l
  | _ + 1, [] => []
  | fuel + 1, c :: rest =>
    match matchExprAt (c :: rest) with
    | some (body, after) => (f ⟨body⟩).data ++ goRepl f fuel after
    | none => c :: goRepl f fuel rest

/-- `value.replace(/\$\x7b([^\x7d]+)\x7d/g, f)` on a `String`. -/
def jsReplaceExpr (f : String → String) (s : String) : String :=
  ⟨goRepl f (s.data.length + 1) s.data⟩

/-- The expression bodies matched by `/\$\x7b([^\x7d]+)\x7d/g` in scanning
order (the same traversal as `jsReplaceExpr`, collecting instead of
replacing); used for `matchAll`-style loops in the validator. -/
def collectB : Nat → List Char → List (List Char)
  | 0, _ => []
  | _ + 1, [] => []
  | fuel + 1, c :: rest =>
    match matchExprAt (c :: rest) with
    | some (body, after) => body :: collectB fuel after
    | none => collectB fuel rest

/-- All `${...}` expression bodies occurring in `s`, left to right. -/
def collectBodies (s : String) : List String :=
  (collectB (s.data.length + 1) s.data).map (fun l => ⟨l⟩)

/-- Does `s` contain a complete `${...}` expression (non-empty body)? -/
def hasExpr (s : String) : Bool :=
  collectBodies s ≠ []

/-- JavaScript-object lookup `m[k]` on an insertion-ordered association
list. -/
def objGet {α : Type} : List (String × α) → String → Option α
  | [], _ => none
  | (k, v) :: rest, key => if k = key then some v else objGet rest key

/-- JavaScript-object assignment `m[k] = v`: an existing key keeps its
position and gets the new value, a fresh key is appended. -/
def objSet {α : Type} : List (String × α) → String → α → List (String × α)
  | [], key, v => [(key, v)]
  | (k, w) :: rest, key, v =>
    if k = key then (k, v) :: rest else (k, w) :: objSet rest key v

/-- Base64url alphabet (RFC 4648 §5), used by
`Buffer.prototype.toString("base64url")`. -/
def b64urlChar (n : Nat) : Char :=
  "ABCDEFGHIJKLMNOPQRSTUVWXYZabcdefghijklmnopqrstuvwxyz0123456789-_".data.getD n 'A'

/-- Base64url encoding of a byte list, without padding (Node's
`base64url` encoding emits no `=`). -/
def b64urlEncode : List Nat → List Char
  | [] => []
  | [b1] => [b64urlChar (b1 / 4), b64urlChar (b1 % 4 * 16)]
  | [b1, b2] =>
    [b64urlChar (b1 / 4), b64urlChar (b1 % 4 * 16 + b2 / 16), b64urlChar (b2 % 16 * 4)]
  | b1 :: b2 :: b3 :: rest =>
    b64urlChar (b1 / 4) :: b64urlChar (b1 % 4 * 16 + b2 / 16) ::
      b64urlChar (b2 % 16 * 4 + b3 / 64) :: b64urlChar (b3 % 64) :: b64urlEncode rest

/-- `Buffer.from(s).toString("base64url")` for the ASCII strings the
scripts feed it. -/
def b64urlStr (s : String) : String :=
  ⟨b64urlEncode (s.data.map Char.toNat)⟩

/-- The host environment of the scripts: randomness sources
(`crypto.randomBytes`, `Math.random`, `crypto.randomUUID`), the clock
(`Date.now`) and the host parsers (`new Date(string)`, `JSON.parse`).
Randomness is modelled as an arbitrary fixed stream: `randBelow i n` is
the value of `Math.floor(Math.random() * n)` at call site / iteration `i`
(always `< n`, as the JavaScript expression is).  `randomHex n` is
`randomBytes(n).toString("hex")` and `randomBase64 n` is
`randomBytes(n).toString("base64")`; hex and base64 alphabets contain no
`'\x7b'`, recorded by the two membership fields. -/
structure Env where
  randBelow : Nat → Nat → Nat
  randBelow_lt : ∀ i n, 0 < n → randBelow i n < n
  randomHex : Int → String
  randomBase64 : Int → String
  uuid : String
  now : Int
  parseDate : String → Option Int
  jsonReserialize : String → Option String
  randomHex_nobrace : ∀ n, '\x7b' ∉ (randomHex n).data
  randomBase64_nobrace : ∀ n, '\x7b' ∉ (randomBase64 n).data

/-- `Schema` of `helpers.ts`: `interface Schema \x7b domain?: string \x7d`. -/
structure Schema where
  domain : Option String

/-- `generateRandomDomain(schema)`: `schema.domain || "app-" +
randomBytes(8).toString("hex") + ".example.com"` (JS `||`: the override is
used only when it is a non-empty string). -/
def generateRandomDomain (schema : Schema) (env : Env) : String :=
  let fallback := "app-" ++ env.randomHex 8 ++ ".example.com"
  match schema.domain with
  | some d => if d = "" then fallback else d
  | none => fallback

/-- `generateBase64(length)`: `randomBytes(length).toString("base64")`. -/
def generateBase64 (length : Int) (env : Env) : String :=
  env.randomBase64 length

/-- The password charset of `generatePassword` (70 characters). -/
def passwordCharset : String :=
  "abcdefghijklmnopqrstuvwxyzABCDEFGHIJKLMNOPQRSTUVWXYZ0123456789!@#$%^&*"

/-- `generatePassword(length)`: `length` iterations appending
`charset.charAt(Math.floor(Math.random() * charset.length))`; a
non-positive `length` runs the loop zero times. -/
def generatePassword (length : Int) (env : Env) : String :=
  ⟨(List.range length.toNat).map
    (fun i => passwordCharset.data.getD (env.randBelow i passwordCharset.data.length) 'a')⟩

/-- `generateHash(length = 8)`: `randomBytes(length).toString("hex")`. -/
def generateHash (length : Int) (env : Env) : String :=
  env.randomHex length

/-- The JWT header segment:
`Buffer.from(JSON.stringify(\x7b alg: "HS256", typ: "JWT" \x7d)).toString("base64url")`. -/
def jwtHeader : String :=
  b64urlStr "\x7b\"alg\":\"HS256\",\"typ\":\"JWT\"\x7d"

/-- The non-legacy three-segment token of `generateJwt`:
`header.body.signature` where `body` base64url-encodes
`JSON.stringify(options.payload || \x7b\x7d)` (the `payload` argument is
modelled by its serialized JSON text) and `signature` is the first 32
characters of `Buffer.from(secret).toString("base64url")`, the secret
defaulting to `generatePassword(32)` when absent or empty (JS `||`). -/
def generateJwtToken (secret? : Option String) (payloadJson? : Option String)
    (env : Env) : String :=
  let payload := match payloadJson? with
    | some p => p
    | none => "\x7b\x7d"
  let secret := match secret? with
    | some s => if s = "" then generatePassword 32 env else s
    | none => generatePassword 32 env
  let signature := jsTake 32 (b64urlStr secret)
  jwtHeader ++ "." ++ b64urlStr payload ++ "." ++ signature

/-- `generateJwt(options)`.  `options.length` truthy (non-zero) selects the
legacy form `randomBytes(length).toString("hex")`; otherwise the
three-segment token is emitted. -/
def generateJwt (length? : Option Int) (secret? : Option String)
    (payloadJson? : Option String) (env : Env) : String :=
  match length? with
  | some l =>
    if l ≠ 0 then env.randomHex l
    else generateJwtToken secret? payloadJson? env
  | none => generateJwtToken secret? payloadJson? env

/-- The literal `${...}` text of an expression body (the regex `match`
argument of the replace callbacks). -/
def exprLit (body : String) : String :=
  "$\x7b" ++ body ++ "\x7d"

/-- `s.slice(n)`. -/
def strDrop (n : Nat) (s : String) : String :=
  ⟨s.data.drop n⟩

/-- The helper-length argument `Number.parseInt(varName.split(":")[1], 10)
|| dflt` used by the `base64:`/`password:`/`hash:` branches of
`processValue` (JS `||`: both `NaN` and `0` fall back to the default). -/
def lenArg (body : String) (dflt : Int) : Int :=
  match (splitColonStr body).get? 1 with
  | some p =>
    (match parseIntJS p with
     | some k => if k = 0 then dflt else k
     | none => dflt)
  | none => dflt

/-- `/^\d\x7b1,3\x7d$/.test(p)`: one to three decimal digits, anchored. -/
def isDigits1to3 (p : String) : Bool :=
  p.data.all Char.isDigit && decide (1 ≤ p.data.length) && decide (p.data.length ≤ 3)

/-- Does `p.trimStart()` start with `'\x7b'` and `p.trimEnd()` end with
`'\x7d'` (the JSON-object-literal shape test of the `jwt:` branch)? -/
def looksLikeJsonObj (p : String) : Bool :=
  (match p.data.dropWhile isJsWs with
   | '\x7b' :: _ => true
   | _ => false) &&
  (match p.data.reverse.dropWhile isJsWs with
   | '\x7d' :: _ => true
   | _ => false)

/-- The final fallback of both replace passes:
`variables[varName] || match` (an empty-string value is falsy, so it
behaves like an absent key and leaves the literal text). -/
def lookupBody (vars : List (String × String)) (body : String) : String :=
  match objGet vars body with
  | some v => if v = "" then exprLit body else v
  | none => exprLit body

/-- The `jwt:` branch of `processValue` for a non-legacy parameter list:
`params = varName.split(":").slice(1)`.  The second parameter is looked up
in the variable map; the subsequent `JSON.parse` attempt (helpers.ts lines
150-162) is unconditionally overwritten by the `typeof payload !==
"object"` test of lines 163-167 — `payload` is a string or `undefined`,
never an object — so the payload passed to `generateJwt` is always
`undefined`.  The secret is `secret ? variables[secret] || secret :
undefined`. -/
def jwtNonLegacy (params : List String) (vars : List (String × String))
    (env : Env) : String :=
  let payload0? := params.get? 1
  let _payload? : Option String := match payload0? with
    | some p =>
      (match objGet vars p with
       | some v => if v = "" then some p else some v
       | none => some p)
    | none => none
  let _parsed0 : Option String := match _payload? with
    | some p => if looksLikeJsonObj p then env.jsonReserialize p else none
    | none => none
  let parsedPayload : Option String := none
  let secretArg : Option String := match params.get? 0 with
    | some s =>
      if s = "" then none
      else
        (match objGet vars s with
         | some v => if v = "" then some s else some v
         | none => some s)
    | none => none
  generateJwt none secretArg parsedPayload env

/-- The `jwt:` branch of `processValue`: a single all-digit parameter of
one to three digits is the legacy `jwt:length` form; anything else goes to
`jwtNonLegacy`. -/
def jwtBranch (body : String) (vars : List (String × String)) (env : Env) : String :=
  let params := (splitColonStr body).drop 1
  match params with
  | [p] =>
    if p ≠ "" ∧ isDigits1to3 p then
      generateJwt (some ((parseIntJS p).getD 0)) none none env
    else jwtNonLegacy params vars env
  | _ => jwtNonLegacy params vars env

/-- The `username` branch: adjective + noun + number, lowercased. -/
def usernameGen (env : Env) : String :=
  let adjectives := ["cool", "smart", "fast", "quick", "super", "mega"]
  let nouns := ["user", "admin", "dev", "test", "demo", "guest"]
  let adj := adjectives.getD (env.randBelow 1 adjectives.length) ""
  let noun := nouns.getD (env.randBelow 2 nouns.length) ""
  let num := env.randBelow 3 1000
  jsToLower (adj ++ noun ++ toString num)

/-- The `email` branch.  The source obtains the username via
`processValue("$\x7busername\x7d", variables, schema)`, which evaluates to
exactly the `username` branch (`usernameGen`); it is inlined here to keep
the definition structurally recursive. -/
def emailGen (env : Env) : String :=
  let domains := ["example.com", "test.com", "demo.org"]
  jsToLower (usernameGen env ++ "@" ++ domains.getD (env.randBelow 4 domains.length) "")

/-- The replace callback of the first pass of `processValue` (helpers.ts
lines 84-194): the utility-helper dispatch chain, falling through to
variable lookup. -/
def resolveBody (body : String) (vars : List (String × String))
    (schema : Schema) (env : Env) : String :=
  if body = "domain" then generateRandomDomain schema env
  else if body = "base64" then generateBase64 32 env
  else if jsStartsWith body "base64:" then generateBase64 (lenArg body 32) env
  else if jsStartsWith body "password:" then generatePassword (lenArg body 16) env
  else if body = "password" then generatePassword 16 env
  else if jsStartsWith body "hash:" then generateHash (lenArg body 8) env
  else if body = "hash" then generateHash 8 env
  else if body = "uuid" then env.uuid
  else if body = "timestamp" then toString env.now
  else if body = "timestampms" then toString env.now
  else if body = "timestamps" then toString ((env.now + 500).fdiv 1000)
  else if jsStartsWith body "timestampms:" then
    (match env.parseDate (strDrop 12 body) with
     | some t => toString t
     | none => "NaN")
  else if jsStartsWith body "timestamps:" then
    (match env.parseDate (strDrop 11 body) with
     | some t => toString ((t + 500).fdiv 1000)
     | none => "NaN")
  else if body = "randomPort" then toString (env.randBelow 0 65535)
  else if body = "jwt" then generateJwt none none none env
  else if jsStartsWith body "jwt:" then jwtBranch body vars env
  else if body = "username" then usernameGen env
  else if body = "email" then emailGen env
  else lookupBody vars body

/-- The dispatch condition of `resolveBody`: does some utility-helper
branch (rather than the variable-lookup fallback) claim this body? -/
def isHelperForm (body : String) : Bool :=
  body = "domain" || body = "base64" || jsStartsWith body "base64:" ||
  jsStartsWith body "password:" || body = "password" ||
  jsStartsWith body "hash:" || body = "hash" || body = "uuid" ||
  body = "timestamp" || body = "timestampms" || body = "timestamps" ||
  jsStartsWith body "timestampms:" || jsStartsWith body "timestamps:" ||
  body = "randomPort" || body = "jwt" || jsStartsWith body "jwt:" ||
  body = "username" || body = "email"

/-- The tag of a helper expression body: the text before the first `:`
(the whole body when there is no `:`). -/
def tagOf (body : String) : String :=
  (splitColonStr body).headD ""

/-- `processValue(value, variables, schema)`: empty input is returned as
is; otherwise the helper/variable pass runs first and a lookup-only pass
replaces any remaining `${var}` occurrences. -/
def processValue (value : String) (vars : List (String × String))
    (schema : Schema) (env : Env) : String :=
  if value = "" then value
  else
    let processedValue := jsReplaceExpr (fun body => resolveBody body vars schema env) value
    jsReplaceExpr (fun body => lookupBody vars body) processedValue

/-- Runtime value of a parsed TOML/YAML field as JavaScript sees it
(`typeof` / truthiness of the shapes the validators branch on). -/
inductive JsVal where
  | jstr (s : String)
  | jnum (n : Int)
  | jbool (b : Bool)
  | jnull
  | jother
  deriving DecidableEq

/-- JavaScript truthiness of a `JsVal` (`jother` stands for objects,
which are always truthy). -/
def JsVal.truthy : JsVal → Bool
  | .jstr s => s ≠ ""
  | .jnum n => n ≠ 0
  | .jbool b => b
  | .jnull => false
  | .jother => true

/-- `typeof v === "string"`. -/
def JsVal.isStr : JsVal → Bool
  | .jstr _ => true
  | _ => false

/-- First match of `/\$\x7btag:(\d+)\x7d/` anywhere in the value: `pat` is
the characters of `"$\x7btag:"`; a match needs a non-empty digit run
followed by `'\x7d'`. -/
def matchTagLenAt (pat l : List Char) : Option Nat :=
  if pat.isPrefixOf l then
    let after := l.drop pat.length
    let digits := after.takeWhile Char.isDigit
    if digits ≠ [] ∧ (after.drop digits.length).head? = some '\x7d' then
      some (digitsToNat digits)
    else none
  else none

/-- Leftmost match of `/\$\x7btag:(\d+)\x7d/`, scanning every start
position. -/
def findTagLen (pat : List Char) : List Char → Option Nat
  | [] => none
  | l@(_ :: rest) =>
    match matchTagLenAt pat l with
    | some n => some n
    | none => findTagLen pat rest

/-- Pass-1 length extraction `value.match(/\$\x7btag:(\d+)\x7d/)` with
`match?.[1] ? Number.parseInt(match[1], 10) : dflt` — unlike the `||` of
`processValue`, a captured `0` is used as is (only a missing match
defaults). -/
def pass1Len (tag : String) (dflt : Int) (v : String) : Int :=
  match findTagLen ("$\x7b" ++ tag ++ ":").data v.data with
  | some n => (n : Int)
  | none => dflt

/-- The per-entry transformation of the first pass of `processVariables`
(helpers.ts lines 217-235). -/
def pass1Val (v : String) (schema : Schema) (env : Env) : String :=
  if v = "$\x7bdomain\x7d" then generateRandomDomain schema env
  else if jsStartsWith v "$\x7bbase64:" then generateBase64 (pass1Len "base64" 32 v) env
  else if jsStartsWith v "$\x7bpassword:" then generatePassword (pass1Len "password" 16 v) env
  else if v = "$\x7bhash\x7d" then generateHash 8 env
  else if jsStartsWith v "$\x7bhash:" then generateHash (pass1Len "hash" 8 v) env
  else v

/-- Does some pass-1 branch fire on this value (i.e. is the entry
materialized rather than copied)? -/
def pass1Trigger (v : String) : Bool :=
  v = "$\x7bdomain\x7d" || jsStartsWith v "$\x7bbase64:" ||
  jsStartsWith v "$\x7bpassword:" || v = "$\x7bhash\x7d" ||
  jsStartsWith v "$\x7bhash:"

/-- Pass 1 of `processVariables`: non-string values are skipped
(`typeof value !== "string"`), string values go through `pass1Val`.
`Object.entries` of the input yields pairwise-distinct keys, so the
sequential `processed[key] = ...` assignments build the object in entry
order, modelled by this direct recursion. -/
def pass1 : List (String × JsVal) → Schema → Env → List (String × String)
  | [], _, _ => []
  | (k, JsVal.jstr v) :: rest, schema, env =>
    (k, pass1Val v schema env) :: pass1 rest schema env
  | _ :: rest, schema, env => pass1 rest schema env

/-- Pass 2 of `processVariables`: iterate over the snapshot
`Object.entries(processed)` while assigning back into the live object, so
lookups in later iterations see earlier pass-2 results. -/
def pass2 (schema : Schema) (env : Env) :
    List (String × String) → List (String × String) → List (String × String)
  | [], m => m
  | (k, v) :: rest, m => pass2 schema env rest (objSet m k (processValue v m schema env))

/-- `processVariables(variables, schema)` — the two-pass resolution
(`resolveVariableMap` of the specification). -/
def processVariables (varMap : List (String × JsVal)) (schema : Schema)
    (env : Env) : List (String × String) :=
  let processed := pass1 varMap schema env
  pass2 schema env processed processed

/-- View a resolved `Record<string, string>` as a `Record<string, JsVal>`
input (string values), for re-running `processVariables` on its own
output. -/
def jstrMap (m : List (String × String)) : List (String × JsVal) :=
  m.map (fun p => (p.1, JsVal.jstr p.2))

/-! ## The template validator (`src/unnamed/part_000`) -/

/-- A `port` field value (`number | string` in the descriptor model). -/
inductive PortV where
  | pnum (n : Int)
  | pstr (s : String)
  deriving DecidableEq

/-- JavaScript truthiness of a port value. -/
def PortV.truthy : PortV → Bool
  | .pnum n => n ≠ 0
  | .pstr s => s ≠ ""

/-- `DomainConfig` of the template validator. -/
structure DomainConfig where
  serviceName : Option String
  port : Option PortV
  host : Option String
  path : Option String

/-- `config.domains` as found at runtime: an array, or some non-array
value (which is an error and aborts template validation). -/
inductive DomainsField where
  | arr (ds : List DomainConfig)
  | notArr

/-- One entry of array-form `config.env`. -/
inductive EnvEntry where
  | estr (s : String)
  | eobj (pairs : List (String × JsVal))
  | ebool (b : Bool)
  | enum (n : Int)
  | eother

/-- `config.env` as found at runtime. -/
inductive EnvField where
  | envArr (entries : List EnvEntry)
  | envObj (pairs : List (String × JsVal))
  | envOther

/-- `MountConfig` of the template validator; field values kept as runtime
values since the checks branch on truthiness and `typeof`. -/
structure MountConfig where
  filePath : Option JsVal
  content : Option JsVal

/-- `config.mounts` as found at runtime. -/
inductive MountsField where
  | arr (ms : List MountConfig)
  | notArr

/-- The top-level `variables` table as found at runtime. -/
inductive VariablesField where
  | obj (pairs : List (String × JsVal))
  | notObj

/-- The `[config]` section of `template.toml`. -/
structure ConfigData where
  domains : Option DomainsField
  env : Option EnvField
  mounts : Option MountsField

/-- Parsed `template.toml` (`TemplateData`); the `variables` table is
named `variablesField` here because `variables` is reserved in Lean. -/
structure TemplateData where
  variablesField : Option VariablesField
  config : Option ConfigData

/-- Outcome of reading and TOML-parsing `template.toml`. -/
inductive TomlOutcome where
  | missing
  | parseErr (msg : String)
  | ok (data : TemplateData)

/-- One service of the compose manifest (the fields the validators
inspect). -/
structure ComposeService where
  image : Option String
  container_name : Option String
  networks : Option (Sum (List String) (List String))
  ports : Option (List (Sum String (Option PortV × Option PortV)))

/-- Parsed `docker-compose.yml`: the service map and the keys of the
root-level `networks` map.  `networks` of a service is `Sum.inl` for the
array form and `Sum.inr` for the map form (its key list); a `ports` entry
is `Sum.inl` for the string form and `Sum.inr (published, target)` for the
object form (any other runtime shape triggers no check and is omitted
from the model by an entry with both fields `none`). -/
structure ComposeSpec where
  services : Option (List (String × ComposeService))
  networks : Option (List String)

/-- Outcome of reading and YAML-parsing `docker-compose.yml`. -/
inductive ComposeOutcome where
  | missing
  | invalid
  | threw (msg : String)
  | ok (spec : ComposeSpec)

/-- The messages the template validator pushes onto `this.errors` /
`this.warnings`, as structured values; `render` below recovers the exact
strings. -/
inductive VMsg where
  | tomlNotFound (path : String)
  | tomlSyntax (path msg : String)
  | missingConfig
  | domainsNotArray
  | domainMissingService (i : Nat)
  | domainMissingPort (i : Nat)
  | domainServiceNotFound (i : Nat) (name : String) (avail : List String)
  | domainPortInvalid (i : Nat) (portText : String)
  | domainHostStatic (i : Nat) (host : String)
  | noDomains
  | helperBadParam (context helper : String)
  | helperBadDatetime (context helper : String)
  | envNoEquals (i : Nat) (s : String)
  | envEmptyObject (i : Nat)
  | envEntryBad (i : Nat)
  | envObjEmpty
  | envNotArrayOrObject
  | mountsNotArray
  | mountMissingFilePath (i : Nat)
  | mountFilePathNotString (i : Nat)
  | mountMissingContent (i : Nat)
  | mountContentNotString (i : Nat)
  | variablesNotObject
  | variableNotString (key : String)
  | varUnresolvedRef (key expr : String)
  | domainHostUnresolved (i : Nat) (result : String)
  | envUnresolvedArr (i : Nat)
  | envUnresolvedObj (key : String)
  | mountFilePathUnresolved (i : Nat)
  | mountContentUnresolved (i : Nat)
  | processVarsFailed
  | composeNotFound (path : String)
  | composeInvalid (path : String)
  | composeParseFailed (path msg : String)
  | composeNoServices (path : String)
  deriving DecidableEq

/-- The exact message string of each template-validator message (source
template literals, with `\x27` the ASCII apostrophe and `\x7b`/`\x7d`
braces). -/
def render : VMsg → String
  | .tomlNotFound p => "template.toml not found at " ++ p
  | .tomlSyntax p m => "Invalid TOML syntax in " ++ p ++ ": " ++ m
  | .missingConfig => "Missing [config] section in template.toml"
  | .domainsNotArray => "config.domains must be an array"
  | .domainMissingService i =>
    "domain[" ++ toString i ++ "]: Missing required field \x27serviceName\x27"
  | .domainMissingPort i =>
    "domain[" ++ toString i ++ "]: Missing required field \x27port\x27"
  | .domainServiceNotFound i n avail =>
    "domain[" ++ toString i ++ "]: serviceName \x27" ++ n ++
      "\x27 not found in docker-compose.yml services. Available services: " ++
      String.intercalate ", " avail
  | .domainPortInvalid i p =>
    "domain[" ++ toString i ++ "]: port \x27" ++ p ++ "\x27 may be invalid (should be 1-65535)"
  | .domainHostStatic i h =>
    "domain[" ++ toString i ++ "]: host \x27" ++ h ++
      "\x27 doesn\x27t use variable syntax (e.g., $\x7bmain_domain\x7d or $\x7bdomain\x7d)"
  | .noDomains => "No domains configured in template.toml"
  | .helperBadParam ctx h =>
    ctx ++ ": helper \x27" ++ h ++ "\x27 has invalid parameter (should be a number)"
  | .helperBadDatetime ctx h =>
    ctx ++ ": helper \x27" ++ h ++ "\x27 has invalid datetime format"
  | .envNoEquals i s =>
    "config.env[" ++ toString i ++ "]: \x27" ++ s ++ "\x27 doesn\x27t follow KEY=VALUE format"
  | .envEmptyObject i => "config.env[" ++ toString i ++ "]: empty object"
  | .envEntryBad i =>
    "config.env[" ++ toString i ++ "]: must be a string, object, boolean, or number"
  | .envObjEmpty => "config.env is an empty object"
  | .envNotArrayOrObject =>
    "config.env must be an array or an object (as per Dokploy\x27s processEnvVars)"
  | .mountsNotArray => "config.mounts must be an array"
  | .mountMissingFilePath i =>
    "config.mounts[" ++ toString i ++ "]: Missing required field \x27filePath\x27"
  | .mountFilePathNotString i =>
    "config.mounts[" ++ toString i ++ "]: filePath must be a string"
  | .mountMissingContent i =>
    "config.mounts[" ++ toString i ++ "]: Missing required field \x27content\x27"
  | .mountContentNotString i =>
    "config.mounts[" ++ toString i ++ "]: content must be a string"
  | .variablesNotObject => "variables must be an object"
  | .variableNotString k => "variables." ++ k ++ ": must be a string"
  | .varUnresolvedRef k e =>
    "variables." ++ k ++ ": contains unresolved variable reference \x27" ++ e ++ "\x27"
  | .domainHostUnresolved i r =>
    "domain[" ++ toString i ++ "].host: could not fully resolve all variables. Result: " ++ r
  | .envUnresolvedArr i =>
    "config.env[" ++ toString i ++ "]: could not fully resolve all variables"
  | .envUnresolvedObj k =>
    "config.env." ++ k ++ ": could not fully resolve all variables"
  | .mountFilePathUnresolved i =>
    "config.mounts[" ++ toString i ++ "].filePath: could not fully resolve all variables"
  | .mountContentUnresolved i =>
    "config.mounts[" ++ toString i ++ "].content: could not fully resolve all variables"
  | .processVarsFailed =>
    "Failed to process variables: data.config.mounts.forEach is not a function"
  | .composeNotFound p => "docker-compose.yml not found at " ++ p
  | .composeInvalid p => "Invalid docker-compose.yml structure at " ++ p
  | .composeParseFailed p m =>
    "Failed to parse docker-compose.yml at " ++ p ++ ": " ++ m
  | .composeNoServices p => "No services found in docker-compose.yml at " ++ p

/-- The recognized helper tags (`validHelpers` of `validateHelper`). -/
def validHelpers : List String :=
  ["domain", "base64", "password", "hash", "uuid", "timestamp", "timestampms",
   "timestamps", "randomPort", "jwt", "username", "email"]

/-- `validateHelper(helper, context)`: warnings only — a recognized tag
with a parameter list gets its parameter format checked, everything else
(including possible variable references) passes silently. -/
def validateHelper (env : Env) (helper context : String) : List VMsg :=
  if jsIncludes helper ":" then
    let parts := splitColonStr helper
    let helperName := parts.headD ""
    let params := parts.drop 1
    if ¬ validHelpers.contains helperName then []
    else if helperName = "base64" ∨ helperName = "password" ∨ helperName = "hash" then
      match params.get? 0 with
      | some p =>
        if p ≠ "" ∧ (parseIntJS p).isNone then [VMsg.helperBadParam context helper] else []
      | none => []
    else if helperName = "timestampms" ∨ helperName = "timestamps" then
      let datetime := joinColon params
      if datetime ≠ "" ∧ (env.parseDate datetime).isNone then
        [VMsg.helperBadDatetime context helper]
      else []
    else []
  else []

/-- `s.replace(/_/g, "")`. -/
def stripUnderscores (s : String) : String :=
  ⟨s.data.filter (fun c => c ≠ '_')⟩

/-- The checks run for the domain entry at index `i`: required fields,
serviceName against the manifest service names (only when the service
list is non-empty), port range, host variable syntax. -/
def domainChecksAt (env : Env) (S : List String) (i : Nat) (d : DomainConfig) :
    List VMsg × List VMsg :=
  let e1 := match d.serviceName with
    | some n => if n = "" then [VMsg.domainMissingService i] else []
    | none => [VMsg.domainMissingService i]
  let e2 := match d.port with
    | none => [VMsg.domainMissingPort i]
    | some _ => []
  let e3 := match d.serviceName with
    | some n =>
      if n ≠ "" ∧ 0 < S.length ∧ ¬ S.contains n then [VMsg.domainServiceNotFound i n S]
      else []
    | none => []
  let w1 := match d.port with
    | none => []
    | some (.pnum n) =>
      if n < 1 ∨ 65535 < n then [VMsg.domainPortInvalid i (toString n)] else []
    | some (.pstr s) =>
      match parseIntJS (stripUnderscores s) with
      | none => [VMsg.domainPortInvalid i s]
      | some n => if n < 1 ∨ 65535 < n then [VMsg.domainPortInvalid i s] else []
  let w2 := match d.host with
    | some h =>
      if h = "" then []
      else if ¬ jsIncludes h "$\x7b" then [VMsg.domainHostStatic i h]
      else (collectBodies h).flatMap
        (fun b => validateHelper env b ("domain[" ++ toString i ++ "].host"))
    | none => []
  (e1 ++ e2 ++ e3, w1 ++ w2)

/-- The domain `forEach` loop, with running index. -/
def domainsChecks (env : Env) (S : List String) : Nat → List DomainConfig →
    List VMsg × List VMsg
  | _, [] => ([], [])
  | i, d :: rest =>
    ((domainChecksAt env S i d).1 ++ (domainsChecks env S (i + 1) rest).1,
     (domainChecksAt env S i d).2 ++ (domainsChecks env S (i + 1) rest).2)

/-- The check for one array-form `config.env` entry. -/
def envEntryCheck (i : Nat) : EnvEntry → List VMsg × List VMsg
  | .estr s => ([], if ¬ jsIncludes s "=" then [VMsg.envNoEquals i s] else [])
  | .eobj pairs => ([], if pairs.isEmpty then [VMsg.envEmptyObject i] else [])
  | .ebool _ => ([], [])
  | .enum _ => ([], [])
  | .eother => ([VMsg.envEntryBad i], [])

/-- The array-form `config.env` loop. -/
def envChecksFrom : Nat → List EnvEntry → List VMsg × List VMsg
  | _, [] => ([], [])
  | i, e :: rest =>
    ((envEntryCheck i e).1 ++ (envChecksFrom (i + 1) rest).1,
     (envEntryCheck i e).2 ++ (envChecksFrom (i + 1) rest).2)

/-- The `config.env` check group. -/
def envChecks : Option EnvField → List VMsg × List VMsg
  | none => ([], [])
  | some (.envArr es) => envChecksFrom 0 es
  | some (.envObj pairs) => ([], if pairs.isEmpty then [VMsg.envObjEmpty] else [])
  | some .envOther => ([VMsg.envNotArrayOrObject], [])

/-- The check for the mount entry at index `i` (`!mount.filePath` is
falsy for a missing or empty path; `content` is only required to be
present and a string). -/
def mountCheckAt (i : Nat) (m : MountConfig) : List VMsg :=
  let e1 := match m.filePath with
    | some v =>
      if ¬ v.truthy then [VMsg.mountMissingFilePath i]
      else if ¬ v.isStr then [VMsg.mountFilePathNotString i]
      else []
    | none => [VMsg.mountMissingFilePath i]
  let e2 := match m.content with
    | some v => if ¬ v.isStr then [VMsg.mountContentNotString i] else []
    | none => [VMsg.mountMissingContent i]
  e1 ++ e2

/-- The mounts `forEach` loop. -/
def mountsChecksFrom : Nat → List MountConfig → List VMsg
  | _, [] => []
  | i, m :: rest => mountCheckAt i m ++ mountsChecksFrom (i + 1) rest

/-- The `config.mounts` check group. -/
def mountsChecks : Option MountsField → List VMsg
  | none => []
  | some .notArr => [VMsg.mountsNotArray]
  | some (.arr ms) => mountsChecksFrom 0 ms

/-- Per-key `variables` errors: every non-string value gets
`variables.<key>: must be a string` (and skips helper validation). -/
def varKeyErrs (pairs : List (String × JsVal)) : List VMsg :=
  pairs.filterMap (fun p =>
    match p.2 with
    | JsVal.jstr _ => none
    | _ => some (VMsg.variableNotString p.1))

/-- Per-key `variables` helper-syntax warnings for string values. -/
def varKeyWarns (env : Env) (pairs : List (String × JsVal)) : List VMsg :=
  pairs.flatMap (fun p =>
    match p.2 with
    | JsVal.jstr s =>
      (collectBodies s).flatMap (fun b => validateHelper env b ("variables." ++ p.1))
    | _ => [])

/-- The unresolved-reference scan over the processed variables: a value
still containing `$\x7b` has each expression body checked; bodies that do
not name a truthy raw variable and contain no `:` are reported. -/
def unresolvedVarWarns (raw : List (String × JsVal))
    (processedVars : List (String × String)) : List VMsg :=
  processedVars.flatMap (fun p =>
    if jsIncludes p.2 "$\x7b" then
      (collectBodies p.2).filterMap (fun b =>
        let rawTruthy := match objGet raw b with
          | some v => v.truthy
          | none => false
        if (!rawTruthy) && !jsIncludes b ":" then
          some (VMsg.varUnresolvedRef p.1 (exprLit b))
        else none)
    else [])

/-- The domain-host resolution smoke test. -/
def domainSmoke (env : Env) (pv : List (String × String)) : Nat → List DomainConfig →
    List VMsg
  | _, [] => []
  | i, d :: rest =>
    (match d.host with
     | some h =>
       if h = "" then []
       else
         let ph := processValue h pv ⟨none⟩ env
         if jsIncludes ph "$\x7b" then [VMsg.domainHostUnresolved i ph] else []
     | none => []) ++ domainSmoke env pv (i + 1) rest

/-- The array-form env resolution smoke test. -/
def envSmokeArr (env : Env) (pv : List (String × String)) : Nat → List EnvEntry →
    List VMsg
  | _, [] => []
  | i, e :: rest =>
    (match e with
     | .estr s =>
       if jsIncludes (processValue s pv ⟨none⟩ env) "$\x7b" then [VMsg.envUnresolvedArr i]
       else []
     | _ => []) ++ envSmokeArr env pv (i + 1) rest

/-- The env resolution smoke test (array or object form). -/
def envSmoke (env : Env) (pv : List (String × String)) : Option EnvField → List VMsg
  | none => []
  | some (.envArr es) => envSmokeArr env pv 0 es
  | some (.envObj pairs) =>
    pairs.flatMap (fun p =>
      match p.2 with
      | JsVal.jstr s =>
        if jsIncludes (processValue s pv ⟨none⟩ env) "$\x7b" then [VMsg.envUnresolvedObj p.1]
        else []
      | _ => [])
  | some .envOther => []

/-- The mounts resolution smoke test (truthy string fields only). -/
def mountSmoke (env : Env) (pv : List (String × String)) : Nat → List MountConfig →
    List VMsg
  | _, [] => []
  | i, m :: rest =>
    ((match m.filePath with
      | some (JsVal.jstr s) =>
        if s ≠ "" ∧ jsIncludes (processValue s pv ⟨none⟩ env) "$\x7b" then
          [VMsg.mountFilePathUnresolved i]
        else []
      | _ => []) ++
     (match m.content with
      | some (JsVal.jstr s) =>
        if s ≠ "" ∧ jsIncludes (processValue s pv ⟨none⟩ env) "$\x7b" then
          [VMsg.mountContentUnresolved i]
        else []
      | _ => [])) ++ mountSmoke env pv (i + 1) rest

/-- The `variables` check group (part_000 lines 341-487): per-key checks,
then the resolution smoke test inside `try \x7b ... \x7d`.  `ds?` carries
`config.domains` when it is an array (a non-array never reaches here —
template validation returned early).  A non-array `config.mounts` makes
the smoke test call `.forEach` on a non-array, whose `TypeError` is
caught and reported as a `Failed to process variables` error after the
domain/env smoke warnings; `processVariables`/`processValue` themselves
never throw. -/
def varsChecks (env : Env) (vars? : Option VariablesField)
    (ds? : Option (List DomainConfig)) (envF : Option EnvField)
    (mounts? : Option MountsField) : List VMsg × List VMsg :=
  match vars? with
  | none => ([], [])
  | some .notObj => ([VMsg.variablesNotObject], [])
  | some (.obj pairs) =>
    let keyE := varKeyErrs pairs
    let keyW := varKeyWarns env pairs
    let processedVars := processVariables pairs ⟨none⟩ env
    let unresW := unresolvedVarWarns pairs processedVars
    let domW := match ds? with
      | some ds => domainSmoke env processedVars 0 ds
      | none => []
    let envW := envSmoke env processedVars envF
    match mounts? with
    | some .notArr =>
      (keyE ++ [VMsg.processVarsFailed], keyW ++ unresW ++ domW ++ envW)
    | some (.arr ms) =>
      (keyE, keyW ++ unresW ++ domW ++ envW ++ mountSmoke env processedVars 0 ms)
    | none => (keyE, keyW ++ unresW ++ domW ++ envW)

/-- `validateTemplate(tomlPath, composeServices)` after file reading and
TOML parsing (outcome in `toml`).  Returns `(earlyReturn, errors,
warnings)`: `earlyReturn` records that the source returned `false` before
its final `return this.errors.length === 0`. -/
def validateTemplateData (env : Env) (toml : TomlOutcome) (tomlPath : String)
    (S : List String) : Bool × List VMsg × List VMsg :=
  match toml with
  | .missing => (true, [VMsg.tomlNotFound tomlPath], [])
  | .parseErr m => (true, [VMsg.tomlSyntax tomlPath m], [])
  | .ok data =>
    match data.config with
    | none => (true, [VMsg.missingConfig], [])
    | some cfg =>
      match cfg.domains with
      | some .notArr => (true, [VMsg.domainsNotArray], [])
      | other =>
        let ds? : Option (List DomainConfig) := match other with
          | some (.arr ds) => some ds
          | _ => none
        let dp := match ds? with
          | some ds => domainsChecks env S 0 ds
          | none => (([] : List VMsg), [VMsg.noDomains])
        let ep := envChecks cfg.env
        let mE := mountsChecks cfg.mounts
        let vp := varsChecks env data.variablesField ds? cfg.env cfg.mounts
        (false, dp.1 ++ ep.1 ++ mE ++ vp.1, dp.2 ++ ep.2 ++ vp.2)

/-- `parseComposeServices(composePath)`: the extracted service names and
the messages pushed while parsing. -/
def parseComposeServices (o : ComposeOutcome) (composePath : String) :
    List String × List VMsg × List VMsg :=
  match o with
  | .missing => ([], [], [VMsg.composeNotFound composePath])
  | .invalid => ([], [VMsg.composeInvalid composePath], [])
  | .threw m => ([], [VMsg.composeParseFailed composePath m], [])
  | .ok spec =>
    let names := match spec.services with
      | some svcs => svcs.map Prod.fst
      | none => []
    (names, [], if names.isEmpty then [VMsg.composeNoServices composePath] else [])

/-- A validator report (`ValidationResult` of both scripts), generic in
the message representation. -/
structure ValidationResult (μ : Type) where
  valid : Bool
  errors : List μ
  warnings : List μ
  deriving DecidableEq

/-- `validateTemplateDir(templateDir)`: parse the compose services, run
`validateTemplate`, and assemble the report.  `this.errors` is shared
between both phases, so `validateTemplate`'s final `this.errors.length
=== 0` sees the compose-parsing errors too; `valid` is `isValid &&
this.errors.length === 0`. -/
def validateTemplateDir (env : Env) (dir : String) (composeO : ComposeOutcome)
    (tomlO : TomlOutcome) : ValidationResult VMsg :=
  let templatePath := dir ++ "/template.toml"
  let composePath := dir ++ "/docker-compose.yml"
  let pcs := parseComposeServices composeO composePath
  let vtd := validateTemplateData env tomlO templatePath pcs.1
  let errors := pcs.2.1 ++ vtd.2.1
  let warnings := pcs.2.2 ++ vtd.2.2
  let isValid := !vtd.1 && errors.isEmpty
  { valid := isValid && errors.isEmpty, errors := errors, warnings := warnings }

/-! ## The docker-compose validator (`src/build-scripts/validate-docker-compose.ts`) -/

/-- The messages of the docker-compose validator. -/
inductive CMsg where
  | noComposePath
  | notFound (path : String)
  | invalidStructure (path : String)
  | parseFailed (msg : String)
  | noServices
  | containerName (svc : String)
  | dokployNetworkSvc (svc : String)
  | explicitNetworkSvc (svc : String)
  | dokployNetworkRoot
  | explicitNetworksRoot
  | portMapping (svc : String) (i : Nat) (port : String)
  | portMappingObj (svc : String) (i : Nat) (published target : PortV)
  | svcUppercase (svc : String)
  | svcUnderscore (svc : String)
  deriving DecidableEq

/-- Template-literal text of a port value. -/
def PortV.text : PortV → String
  | .pnum n => toString n
  | .pstr s => s

/-- The exact message strings of the docker-compose validator. -/
def renderC : CMsg → String
  | .noComposePath => "composePath option is required"
  | .notFound p => "docker-compose.yml not found at " ++ p
  | .invalidStructure p => "Invalid docker-compose.yml structure at " ++ p
  | .parseFailed m => "Failed to parse docker-compose.yml: " ++ m
  | .noServices => "No services found in docker-compose.yml"
  | .containerName s =>
    "Service \x27" ++ s ++ "\x27: Found \x27container_name\x27 field. According to README, container_name should not be used. Dokploy manages container names automatically."
  | .dokployNetworkSvc s =>
    "Service \x27" ++ s ++ "\x27: Uses \x27dokploy-network\x27. Dokploy creates networks automatically, explicit networks are not needed."
  | .explicitNetworkSvc s =>
    "Service \x27" ++ s ++ "\x27: Uses explicit network configuration. Dokploy creates networks automatically, explicit networks are not needed."
  | .dokployNetworkRoot =>
    "Found \x27dokploy-network\x27 in networks section. Dokploy creates networks automatically, explicit networks are not needed."
  | .explicitNetworksRoot =>
    "Found explicit networks section. Dokploy creates networks automatically, explicit networks are not needed."
  | .portMapping s i p =>
    "Service \x27" ++ s ++ "\x27: ports[" ++ toString i ++ "] uses port mapping format \x27" ++
      p ++ "\x27. According to README, use only port number (e.g., \x273000\x27) instead of \x273000:3000\x27. Dokploy handles port routing."
  | .portMappingObj s i pub tgt =>
    "Service \x27" ++ s ++ "\x27: ports[" ++ toString i ++ "] uses port mapping (published: " ++
      pub.text ++ ", target: " ++ tgt.text ++ "). According to README, use only port number. Dokploy handles port routing."
  | .svcUppercase s =>
    "Service \x27" ++ s ++ "\x27: Service names should be lowercase. Consider using \x27" ++
      jsToLower s ++ "\x27."
  | .svcUnderscore s =>
    "Service \x27" ++ s ++ "\x27: Service names should use hyphens instead of underscores. Consider using \x27" ++
      (⟨s.data.map (fun c => if c = '_' then '-' else c)⟩ : String) ++ "\x27."

/-- `/^\d+:\d+/.test(port)`: a leading digit run, a colon, and at least
one more digit. -/
def portMappingTest (s : String) : Bool :=
  let d1 := s.data.takeWhile Char.isDigit
  !d1.isEmpty &&
    (match s.data.drop d1.length with
     | ':' :: r => (r.headD ' ').isDigit
     | _ => false)

/-- `validateNoContainerName`: a truthy `container_name` is an error. -/
def containerNameErrs (svcs : List (String × ComposeService)) : List CMsg :=
  svcs.filterMap (fun p =>
    match p.2.container_name with
    | some n => if n ≠ "" then some (CMsg.containerName p.1) else none
    | none => none)

/-- Per-service part of `validateNoExplicitNetworks` (map form checked
before array form, `dokploy-network` before the generic non-empty
check). -/
def networksSvcErrs (svcs : List (String × ComposeService)) : List CMsg :=
  svcs.flatMap (fun p =>
    match p.2.networks with
    | some (Sum.inr keys) =>
      if keys.contains "dokploy-network" then [CMsg.dokployNetworkSvc p.1]
      else if !keys.isEmpty then [CMsg.explicitNetworkSvc p.1]
      else []
    | some (Sum.inl l) =>
      if l.contains "dokploy-network" then [CMsg.dokployNetworkSvc p.1]
      else if !l.isEmpty then [CMsg.explicitNetworkSvc p.1]
      else []
    | none => [])

/-- Root-level part of `validateNoExplicitNetworks` (both errors can
fire). -/
def networksRootErrs (spec : ComposeSpec) : List CMsg :=
  let hasDokploy := match spec.networks with
    | some keys => keys.contains "dokploy-network"
    | none => false
  (if hasDokploy then [CMsg.dokployNetworkRoot] else []) ++
  (match spec.networks with
   | some keys => if !keys.isEmpty then [CMsg.explicitNetworksRoot] else []
   | none => [])

/-- `validatePortsFormat` for one service's ports array. -/
def portsSvcErrs (svc : String) : Nat →
    List (Sum String (Option PortV × Option PortV)) → List CMsg
  | _, [] => []
  | i, e :: rest =>
    (match e with
     | Sum.inl s => if portMappingTest s then [CMsg.portMapping svc i s] else []
     | Sum.inr (pub, tgt) =>
       match pub, tgt with
       | some p, some t =>
         if p.truthy && t.truthy then [CMsg.portMappingObj svc i p t] else []
       | _, _ => []) ++ portsSvcErrs svc (i + 1) rest

/-- `validatePortsFormat` over all services. -/
def portsErrs (svcs : List (String × ComposeService)) : List CMsg :=
  svcs.flatMap (fun p =>
    match p.2.ports with
    | some ps => portsSvcErrs p.1 0 ps
    | none => [])

/-- `validateServiceNames`: lowercase and no-underscore conventions, both
warnings. -/
def svcNameWarns (svcs : List (String × ComposeService)) : List CMsg :=
  svcs.flatMap (fun p =>
    (if p.1 ≠ jsToLower p.1 then [CMsg.svcUppercase p.1] else []) ++
    (if p.1.data.contains '_' then [CMsg.svcUnderscore p.1] else []))

/-- `DockerComposeValidator.validate()`.  The file is parsed twice
(`validateDockerComposeSyntax`, then again for `compose`); both parses see
the same file, so a successful first parse never adds an error on the
second. -/
def validateCompose (composePath? : Option String) (o : ComposeOutcome) :
    ValidationResult CMsg :=
  match composePath? with
  | none => { valid := false, errors := [CMsg.noComposePath], warnings := [] }
  | some path =>
    match o with
    | .missing => { valid := false, errors := [CMsg.notFound path], warnings := [] }
    | .invalid => { valid := false, errors := [CMsg.invalidStructure path], warnings := [] }
    | .threw m => { valid := false, errors := [CMsg.parseFailed m], warnings := [] }
    | .ok compose =>
      let services := match compose.services with
        | some svcs => svcs
        | none => []
      if services.isEmpty then
        { valid := false, errors := [CMsg.noServices], warnings := [] }
      else
        let errs := containerNameErrs services ++ networksSvcErrs services ++
          networksRootErrs compose ++ portsErrs services
        { valid := errs.isEmpty, errors := errs, warnings := svcNameWarns services }

/-! ## A concrete environment for witnesses and counterexamples -/

/-- A concrete host environment: the zero random stream, fixed hex/base64
outputs, a failing date parser.  Used only to instantiate theorems at
concrete inputs. -/
def env0 : Env where
  randBelow := fun _ _ => 0
  randBelow_lt := fun _ _ h => h
  randomHex := fun _ => "ab12"
  randomBase64 := fun _ => "QUJD"
  uuid := "00000000-0000-4000-8000-000000000000"
  now := 1700000000123
  parseDate := fun _ => none
  jsonReserialize := fun _ => none
  randomHex_nobrace := by
    intro n
    show '\x7b' ∉ "ab12".data
    decide
  randomBase64_nobrace := by
    intro n
    show '\x7b' ∉ "QUJD".data
    decide

/-- The empty schema `\x7b\x7d`. -/
def schema0 : Schema := ⟨none⟩

/-! ## General lemmas about the embedding -/

lemma goRepl_nil (f : String → String) (fuel : Nat) : goRepl f fuel [] = [] := by
  cases fuel <;> rfl

lemma matchExprAt_some_brace : ∀ {l : List Char} {p : List Char × List Char},
    matchExprAt l = some p → '\x7b' ∈ l := by
  intro l p h
  cases l with
  | nil => simp [matchExprAt] at h
  | cons c1 t =>
    cases t with
    | nil => simp [matchExprAt] at h
    | cons c2 rest =>
      by_cases hc : c1 = '$' ∧ c2 = '\x7b'
      · rw [hc.2]
        exact List.mem_cons_of_mem _ (List.mem_cons_self _ _)
      · simp [matchExprAt, hc] at h

lemma collectB_of_nobrace : ∀ (fuel : Nat) (l : List Char),
    '\x7b' ∉ l → collectB fuel l = [] := by
  intro fuel
  induction fuel with
  | zero => intro l _; rfl
  | succ n ih =>
    intro l h
    cases l with
    | nil => rfl
    | cons c rest =>
      have hm : matchExprAt (c :: rest) = none := by
        cases he : matchExprAt (c :: rest) with
        | none => rfl
        | some p => exact absurd (matchExprAt_some_brace he) h
      simp only [collectB, hm]
      exact ih rest (fun hmem => h (List.mem_cons_of_mem _ hmem))

lemma goRepl_of_collectB_nil (f : String → String) :
    ∀ (fuel : Nat) (l : List Char), collectB fuel l = [] → goRepl f fuel l = l := by
  intro fuel
  induction fuel with
  | zero => intro l _; rfl
  | succ n ih =>
    intro l h
    cases l with
    | nil => rfl
    | cons c rest =>
      cases hm : matchExprAt (c :: rest) with
      | some p =>
        obtain ⟨body, after⟩ := p
        simp [collectB, hm] at h
      | none =>
        simp only [collectB, hm] at h
        simp only [goRepl, hm]
        rw [ih rest h]

lemma hasExpr_false_data {v : String} (h : hasExpr v = false) :
    collectB (v.data.length + 1) v.data = [] := by
  unfold hasExpr collectBodies at h
  simpa using h

lemma jsReplaceExpr_id (f : String → String) {v : String} (h : hasExpr v = false) :
    jsReplaceExpr f v = v :=
  String.ext (goRepl_of_collectB_nil f _ _ (hasExpr_false_data h))

/-- A value containing no complete `${...}` expression is returned
unchanged by `processValue`. -/
lemma processValue_id {v : String} (vars : List (String × String)) (schema : Schema)
    (env : Env) (h : hasExpr v = false) : processValue v vars schema env = v := by
  unfold processValue
  by_cases hv : v = ""
  · simp [hv]
  · simp only [hv, if_false]
    rw [jsReplaceExpr_id _ h, jsReplaceExpr_id _ h]

lemma hasExpr_of_nobrace {v : String} (h : '\x7b' ∉ v.data) : hasExpr v = false := by
  unfold hasExpr collectBodies
  simp [collectB_of_nobrace _ _ h]

lemma objSet_keys {α : Type} : ∀ (m : List (String × α)) (k : String) (v : α),
    k ∈ m.map Prod.fst → (objSet m k v).map Prod.fst = m.map Prod.fst := by
  intro m
  induction m with
  | nil => intro k v h; simp at h
  | cons p rest ih =>
    intro k v h
    obtain ⟨k0, v0⟩ := p
    by_cases hk : k0 = k
    · simp [objSet, hk]
    · simp only [List.map_cons, List.mem_cons] at h
      rcases h with h | h


      · exact absurd h.symm hk
      · simp [objSet, hk, ih k v h]

lemma objSet_self {α : Type} : ∀ (m : List (String × α)) (k : String) (v : α),
    (m.map Prod.fst).Nodup → (k, v) ∈ m → objSet m k v = m := by
  intro m
  induction m with
  | nil => intro k v _ h; simp at h
  | cons p rest ih =>
    intro k v hN hmem
    obtain ⟨k0, v0⟩ := p
    simp only [List.map_cons, List.nodup_cons] at hN
    rcases List.mem_cons.mp hmem with h | h
    · obtain ⟨hk, hv⟩ := Prod.mk.injEq .. ▸ h.symm
      simp [objSet, hk.symm, hv]
    · have hk : k0 ≠ k := by
        intro he
        exact hN.1 (he ▸ List.mem_map_of_mem Prod.fst h)
      simp [objSet, hk, ih k v hN.2 h]

lemma pass1_keys (schema : Schema) (env : Env) : ∀ varMap : List (String × JsVal),
    (pass1 varMap schema env).map Prod.fst =
      (varMap.filter (fun p => p.2.isStr)).map Prod.fst := by
  intro varMap
  induction varMap with
  | nil => rfl
  | cons p rest ih =>
    obtain ⟨k, v⟩ := p
    cases v <;> simp [pass1, JsVal.isStr, ih]

lemma pass2_keys (schema : Schema) (env : Env) : ∀ entries m : List (String × String),
    (∀ p ∈ entries, p.1 ∈ m.map Prod.fst) →
    (pass2 schema env entries m).map Prod.fst = m.map Prod.fst := by
  intro entries
  induction entries with
  | nil => intro m _; rfl
  | cons p rest ih =>
    intro m h
    obtain ⟨k, v⟩ := p
    have hk : k ∈ m.map Prod.fst := h (k, v) (List.mem_cons_self _ _)
    have hkeys := objSet_keys m k (processValue v m schema env) hk
    simp only [pass2]
    rw [ih _ (fun q hq => hkeys ▸ h q (List.mem_cons_of_mem _ hq)), hkeys]

/-- C10: the output of `resolveVariableMap` (`processVariables`) has
exactly the string-valued keys of the input, in order: pass 1 copies or
materializes exactly the entries with string values (`typeof value !==
"string"` entries are skipped) and pass 2 only reassigns existing keys,
so every string-valued input key appears in the output and every key
bound to a non-string value is silently absent. -/
theorem processVariables_keys (varMap : List (String × JsVal)) (schema : Schema)
    (env : Env) :
    (processVariables varMap schema env).map Prod.fst =
      (varMap.filter (fun p => p.2.isStr)).map Prod.fst ∧
    ∀ k : String, (k ∈ (processVariables varMap schema env).map Prod.fst ↔
      ∃ p ∈ varMap, p.1 = k ∧ p.2.isStr) := by
  have hkeys : (processVariables varMap schema env).map Prod.fst =
      (varMap.filter (fun p => p.2.isStr)).map Prod.fst := by
    unfold processVariables
    rw [pass2_keys _ _ _ _ (fun p hp => List.mem_map_of_mem Prod.fst hp),
      pass1_keys]
  refine ⟨hkeys, fun k => ?_⟩
  rw [hkeys]
  simp only [List.mem_map, List.mem_filter]
  constructor
  · rintro ⟨p, ⟨hp, hstr⟩, hk⟩
    exact ⟨p, hp, hk, hstr⟩
  · rintro ⟨p, hp, hk, hstr⟩
    exact ⟨p, ⟨hp, hstr⟩, hk⟩

lemma breakAtBrace_append : ∀ b : List Char, '\x7d' ∉ b → ∀ r : List Char,
    breakAtBrace (b ++ '\x7d' :: r) = some (b, r) := by
  intro b
  induction b with
  | nil => intro _ r; simp [breakAtBrace]
  | cons c t ih =>
    intro h r
    have hc : c ≠ '\x7d' := fun he => h (he ▸ List.mem_cons_self _ _)
    simp [breakAtBrace, hc, ih (fun hm => h (List.mem_cons_of_mem _ hm)) r]

lemma exprLit_data (body : String) :
    (exprLit body).data = '$' :: '\x7b' :: (body.data ++ ['\x7d']) := by
  simp [exprLit, String.data_append]

lemma exprLit_ne_empty (body : String) : exprLit body ≠ "" := by
  intro he
  have := congrArg String.data he
  rw [exprLit_data] at this
  simp at this

/-- A single-expression template `${body}` (brace-free non-empty body) is
replaced by exactly `f body`. -/
lemma jsReplaceExpr_single (f : String → String) (body : String)
    (h3 : '\x7d' ∉ body.data) (h4 : body ≠ "") :
    jsReplaceExpr f (exprLit body) = f body := by
  apply String.ext
  show goRepl f ((exprLit body).data.length + 1) (exprLit body).data = (f body).data
  rw [exprLit_data]
  have hbody : body.data ≠ [] := by
    intro he
    exact h4 (String.ext (by rw [he]))
  have hm : matchExprAt ('$' :: '\x7b' :: (body.data ++ ['\x7d'])) =
      some (body.data, []) := by
    simp [matchExprAt, breakAtBrace_append body.data h3 [], hbody]
  simp only [List.length_cons, goRepl, hm]
  exact List.append_nil _

/-- When no utility branch claims the body, `resolveBody` is the variable
lookup fallback. -/
lemma resolveBody_not_helper (body : String) (vars : List (String × String))
    (schema : Schema) (env : Env) (h : isHelperForm body = false) :
    resolveBody body vars schema env = lookupBody vars body := by
  unfold isHelperForm at h
  simp only [Bool.or_eq_false_iff, decide_eq_false_iff_not, and_assoc] at h
  obtain ⟨h1, h2, h3, h4, h5, h6, h7, h8, h9, h10, h11, h12, h13, h14, h15, h16,
    h17, h18⟩ := h
  unfold resolveBody
  simp [h1, h2, h3, h4, h5, h6, h7, h8, h9, h10, h11, h12, h13, h14, h15, h16,
    h17, h18]

lemma splitCh_ne_nil (c : Char) : ∀ l : List Char, splitCh c l ≠ [] := by
  intro l
  induction l with
  | nil => simp [splitCh]
  | cons a t ih =>
    by_cases h : a = c
    · simp [splitCh, h]
    · simp only [splitCh, h, if_false]
      cases he : splitCh c t with
      | nil => simp
      | cons x xs => simp

lemma splitCh_head (c : Char) : ∀ l : List Char,
    (splitCh c l).headD [] = l.takeWhile (fun a => a != c) := by
  intro l
  induction l with
  | nil => simp [splitCh]
  | cons a t ih =>
    by_cases h : a = c
    · simp [splitCh, h, List.takeWhile_cons]
    · cases he : splitCh c t with
      | nil => exact absurd he (splitCh_ne_nil c t)
      | cons x xs =>
        rw [he] at ih
        simp only [List.headD_cons] at ih
        simp [splitCh, h, he, List.takeWhile_cons, ih]

lemma tagOf_eq (body : String) :
    tagOf body = ⟨body.data.takeWhile (fun a => a != ':')⟩ := by
  unfold tagOf splitColonStr
  cases he : splitCh ':' body.data with
  | nil => exact absurd he (splitCh_ne_nil ':' body.data)
  | cons x xs =>
    have hh := splitCh_head ':' body.data
    rw [he] at hh
    simp only [List.headD_cons] at hh
    simp [he, hh]

lemma takeWhile_append_colon : ∀ l t : List Char, (∀ a ∈ l, a ≠ ':') →
    List.takeWhile (fun a => a != ':') (l ++ ':' :: t) = l := by
  intro l
  induction l with
  | nil => intro t _; simp [List.takeWhile_cons]
  | cons a l ih =>
    intro t h
    have ha : a ≠ ':' := h a (List.mem_cons_self _ _)
    simp [List.takeWhile_cons, ha, ih t (fun b hb => h b (List.mem_cons_of_mem _ hb))]

lemma tagOf_startsWith (tag : String) {body pre : String}
    (hpre : pre.data = tag.data ++ [':']) (htag : ∀ a ∈ tag.data, a ≠ ':')
    (h : jsStartsWith body pre = true) : tagOf body = tag := by
  unfold jsStartsWith at h
  rw [List.isPrefixOf_iff_prefix] at h
  obtain ⟨t, ht⟩ := h
  rw [tagOf_eq]
  apply String.ext
  show body.data.takeWhile (fun a => a != ':') = tag.data
  rw [← ht, hpre, List.append_assoc]
  exact takeWhile_append_colon tag.data t htag

/-- A body whose tag is none of the recognized helper tags is not claimed
by any utility branch of `resolveBody`. -/
lemma isHelperForm_false_of_tag {body : String} (h : tagOf body ∉ validHelpers) :
    isHelperForm body = false := by
  cases hf : isHelperForm body
  · rfl
  · exfalso
    apply h
    unfold isHelperForm at hf
    simp only [Bool.or_eq_true, decide_eq_true_eq, or_assoc] at hf
    rcases hf with h1 | h1 | h1 | h1 | h1 | h1 | h1 | h1 | h1 | h1 | h1 | h1 | h1 |
      h1 | h1 | h1 | h1 | h1
    · subst h1; decide
    · subst h1; decide
    · rw [tagOf_startsWith "base64" (by decide) (by decide) h1]; decide
    · rw [tagOf_startsWith "password" (by decide) (by decide) h1]; decide
    · subst h1; decide
    · rw [tagOf_startsWith "hash" (by decide) (by decide) h1]; decide
    · subst h1; decide
    · subst h1; decide
    · subst h1; decide
    · subst h1; decide
    · subst h1; decide
    · rw [tagOf_startsWith "timestampms" (by decide) (by decide) h1]; decide
    · rw [tagOf_startsWith "timestamps" (by decide) (by decide) h1]; decide
    · subst h1; decide
    · subst h1; decide
    · rw [tagOf_startsWith "jwt" (by decide) (by decide) h1]; decide
    · subst h1; decide
    · subst h1; decide

/-- C4: a helper expression body whose tag is not one of the recognized
helper tags and which is not present as a key in the current variable map
resolves to the literal `${...}` text: both replace passes of
`processValue` return the regex `match` itself, and resolution is a total
function (it never raises a propagating failure). -/
theorem processValue_unknown_tag_literal (body : String)
    (vars : List (String × String)) (schema : Schema) (env : Env)
    (h1 : tagOf body ∉ validHelpers) (h2 : objGet vars body = none)
    (h3 : '\x7d' ∉ body.data) (h4 : body ≠ "") :
    processValue (exprLit body) vars schema env = exprLit body := by
  have hlit : lookupBody vars body = exprLit body := by
    unfold lookupBody
    rw [h2]
  unfold processValue
  rw [if_neg (exprLit_ne_empty body)]
  rw [jsReplaceExpr_single _ _ h3 h4,
    resolveBody_not_helper _ _ _ _ (isHelperForm_false_of_tag h1), hlit,
    jsReplaceExpr_single _ _ h3 h4, hlit]

/-- C4 witness: the unknown body `MY_VAR` with an empty variable map. -/
theorem processValue_unknown_tag_literal_witness :
    processValue (exprLit "MY_VAR") [] schema0 env0 = exprLit "MY_VAR" :=
  processValue_unknown_tag_literal "MY_VAR" [] schema0 env0 (by decide) rfl
    (by decide) (by decide)

/-- C9 counterexample: the claim fails for a variable named like a helper
tag.  With `m = \x7b domain: "" \x7d` and a schema override, `${domain}`
is resolved by the `domain` helper branch — which runs before the
variable lookup — so the occurrence is not left literal even though the
variable `domain` is bound to the empty string. -/
theorem emptyvar_helper_name_counterexample :
    processValue (exprLit "domain") [("domain", "")]
      (Schema.mk (some "x.example.com")) env0 = "x.example.com" ∧
    "x.example.com" ≠ exprLit "domain" := by
  constructor
  · decide
  · decide

/-- C9 (amended): a key `k` bound to the empty string behaves like an
undefined variable — `${k}` stays literal — provided `k` is not claimed
by a utility-helper branch (`isHelperForm k = false`); the lookup
`variables[varName] || match` treats the empty string as falsy in both
passes. -/
theorem emptyvar_behaves_undefined (k : String) (vars : List (String × String))
    (schema : Schema) (env : Env) (hk : isHelperForm k = false)
    (hv : objGet vars k = some "") (h3 : '\x7d' ∉ k.data) (h4 : k ≠ "") :
    processValue (exprLit k) vars schema env = exprLit k := by
  have hlit : lookupBody vars k = exprLit k := by
    unfold lookupBody
    rw [hv]
    simp
  unfold processValue
  rw [if_neg (exprLit_ne_empty k)]
  rw [jsReplaceExpr_single _ _ h3 h4, resolveBody_not_helper _ _ _ _ hk, hlit,
    jsReplaceExpr_single _ _ h3 h4, hlit]

/-- C9 witness: `MY_VAR` bound to the empty string stays literal. -/
theorem emptyvar_behaves_undefined_witness :
    processValue (exprLit "MY_VAR") [("MY_VAR", "")] schema0 env0 = exprLit "MY_VAR" :=
  emptyvar_behaves_undefined "MY_VAR" [("MY_VAR", "")] schema0 env0 (by decide) rfl
    (by decide) (by decide)

/-- C7 counterexample: `randomPort:1` is not recognized (only the exact
tag `randomPort` is) — it falls through to variable lookup and stays as
the literal `${randomPort:1}` text, while the bare tag produces a
number.  The suffix does change the outcome to a non-resolution. -/
theorem randomPort_suffix_counterexample :
    resolveBody "randomPort:1" [] schema0 env0 = exprLit "randomPort:1" ∧
    resolveBody "randomPort" [] schema0 env0 = "0" := by
  constructor
  · decide
  · decide

/-- C7 (amended): `randomPort:<suffix>` never matches a helper branch;
when the full body is also not a key of the variable map it is left as
literal text (and only the bare `randomPort` tag generates a port). -/
theorem randomPort_suffix_unresolved (suffix : String)
    (vars : List (String × String)) (schema : Schema) (env : Env)
    (h : objGet vars ("randomPort:" ++ suffix) = none) :
    resolveBody ("randomPort:" ++ suffix) vars schema env =
      exprLit ("randomPort:" ++ suffix) := by
  have hform : isHelperForm ("randomPort:" ++ suffix) = false := by
    unfold isHelperForm
    simp only [Bool.or_eq_false_iff, decide_eq_false_iff_not, and_assoc]
    refine ⟨?_, ?_, ?_, ?_, ?_, ?_, ?_, ?_, ?_, ?_, ?_, ?_, ?_, ?_, ?_, ?_, ?_, ?_⟩
    all_goals first
      | (intro heq
         have hd := congrArg String.data heq
         simp [String.data_append] at hd)
      | simp [jsStartsWith, String.data_append, List.isPrefixOf]
  rw [resolveBody_not_helper _ _ _ _ hform]
  unfold lookupBody
  rw [h]

/-- C7 witness: the suffix `1` with an empty variable map. -/
theorem randomPort_suffix_unresolved_witness :
    resolveBody ("randomPort:" ++ "1") [] schema0 env0 =
      exprLit ("randomPort:" ++ "1") :=
  randomPort_suffix_unresolved "1" [] schema0 env0 rfl

lemma digit_ne_colon (a : Char) (h : a.isDigit = true) : (a != ':') = true := by
  by_cases he : a = ':'
  · subst he
    exact absurd h (by decide)
  · simp [he]

lemma takeWhile_digit_takeWhile_colon (r : List Char) :
    (r.takeWhile (fun a => a != ':')).takeWhile Char.isDigit =
      r.takeWhile Char.isDigit := by
  rw [List.takeWhile_takeWhile]
  congr 1
  funext a
  by_cases h : a.isDigit
  · simp [h, digit_ne_colon a h]
  · simp [h]

lemma digitsLead_takeWhile_colon (r : List Char) :
    digitsLead (r.takeWhile (fun a => a != ':')) = digitsLead r := by
  unfold digitsLead
  rw [takeWhile_digit_takeWhile_colon]

lemma ws_ne_colon {a : Char} (h : isJsWs a = true) : (a != ':') = true := by
  unfold isJsWs at h
  simp only [Bool.or_eq_true, decide_eq_true_eq] at h
  rcases h with ((h | h) | h) | h <;> subst h <;> decide

/-- Truncating at the first `:` does not change `Number.parseInt`: the
whitespace skip, the sign and the digit run all stop at or before a
colon. -/
lemma parseIntChars_takeWhile : ∀ l : List Char,
    parseIntChars (l.takeWhile (fun a => a != ':')) = parseIntChars l := by
  intro l
  induction l with
  | nil => rfl
  | cons a r ih =>
    by_cases hws : isJsWs a
    · have htw : (a :: r).takeWhile (fun x => x != ':') =
          a :: r.takeWhile (fun x => x != ':') := by
        simp [List.takeWhile_cons, ws_ne_colon hws]
      have e1 : parseIntChars (a :: r.takeWhile (fun x => x != ':')) =
          parseIntChars (r.takeWhile (fun x => x != ':')) := by
        unfold parseIntChars
        simp [List.dropWhile_cons, hws]
      have e2 : parseIntChars (a :: r) = parseIntChars r := by
        unfold parseIntChars
        simp [List.dropWhile_cons, hws]
      rw [htw, e1, e2]
      exact ih
    · by_cases hac : a = ':'
      · subst hac
        have htw : (':' :: r).takeWhile (fun x => x != ':') = [] := by
          simp [List.takeWhile_cons]
        rw [htw]
        unfold parseIntChars
        simp [List.dropWhile_cons, hws, digitsLead]
      · have htw : (a :: r).takeWhile (fun x => x != ':') =
            a :: r.takeWhile (fun x => x != ':') := by
          simp [List.takeWhile_cons, hac]
        rw [htw]
        unfold parseIntChars
        simp only [List.dropWhile_cons, hws, Bool.false_eq_true, if_false,
          List.head?_cons, List.tail_cons]
        by_cases h1 : a = '-'
        · simp [h1, digitsLead_takeWhile_colon]
        · by_cases h2 : a = '+'
          · simp [h1, h2, digitsLead_takeWhile_colon]
          · have hd : digitsLead (a :: r.takeWhile (fun x => x != ':')) =
                digitsLead (a :: r) := by
              unfold digitsLead
              rw [List.takeWhile_cons, List.takeWhile_cons,
                takeWhile_digit_takeWhile_colon]
            simp [h1, h2, hd]

lemma splitCh_cons_ne (c a : Char) (l : List Char) (h : a ≠ c) :
    splitCh c (a :: l) = (a :: (splitCh c l).headD []) :: (splitCh c l).tail := by
  cases he : splitCh c l with
  | nil => exact absurd he (splitCh_ne_nil c l)
  | cons x xs => simp [splitCh, h, he]

lemma splitCh_append_colon (c : Char) : ∀ l : List Char, (∀ a ∈ l, a ≠ c) →
    ∀ t : List Char, splitCh c (l ++ c :: t) = l :: splitCh c t := by
  intro l
  induction l with
  | nil => intro _ t; simp [splitCh]
  | cons a l ih =>
    intro h t
    have ha : a ≠ c := h a (List.mem_cons_self _ _)
    rw [List.cons_append, splitCh_cons_ne c a _ ha,
      ih (fun b hb => h b (List.mem_cons_of_mem _ hb)) t]
    simp

/-- `varName.split(":")[1]` of `"password:" + s` is `s` up to its first
colon, so the helper length is governed by `Number.parseInt(s)`. -/
lemma lenArg_password (s : String) :
    lenArg ("password:" ++ s) 16 = (match parseIntJS s with
      | some k => if k = 0 then (16 : Int) else k
      | none => (16 : Int)) := by
  unfold lenArg
  have hdata : ("password:" ++ s).data = "password".data ++ ':' :: s.data := by
    simp [String.data_append]
  have hsplit : splitColonStr ("password:" ++ s) =
      "password" :: (splitCh ':' s.data).map (fun l => (⟨l⟩ : String)) := by
    unfold splitColonStr
    rw [hdata, splitCh_append_colon ':' "password".data (by decide) s.data]
    simp
  rw [hsplit]
  cases he : splitCh ':' s.data with
  | nil => exact absurd he (splitCh_ne_nil ':' s.data)
  | cons x xs =>
    have hx : x = s.data.takeWhile (fun a => a != ':') := by
      have hh := splitCh_head ':' s.data
      rw [he] at hh
      simpa using hh
    show (match parseIntJS ⟨x⟩ with
      | some k => if k = 0 then (16 : Int) else k
      | none => (16 : Int)) = _
    rw [hx]
    show (match parseIntChars (s.data.takeWhile (fun a => a != ':')) with
      | some k => if k = 0 then (16 : Int) else k
      | none => (16 : Int)) = _
    rw [parseIntChars_takeWhile]
    rfl

/-- `resolveBody` on `"password:" + s` takes the `password:` branch. -/
lemma resolveBody_password (s : String) (vars : List (String × String))
    (schema : Schema) (env : Env) :
    resolveBody ("password:" ++ s) vars schema env =
      generatePassword (lenArg ("password:" ++ s) 16) env := by
  have e1 : ("password:" ++ s) ≠ "domain" := by
    intro h
    have := congrArg String.data h
    simp [String.data_append] at this
  have e2 : ("password:" ++ s) ≠ "base64" := by
    intro h
    have := congrArg String.data h
    simp [String.data_append] at this
  have s3 : jsStartsWith ("password:" ++ s) "base64:" = false := by
    simp [jsStartsWith, String.data_append, List.isPrefixOf]
  have s4 : jsStartsWith ("password:" ++ s) "password:" = true := by
    simp [jsStartsWith, String.data_append, List.isPrefixOf]
  unfold resolveBody
  simp [e1, e2, s3, s4]

lemma generatePassword_length (len : Int) (env : Env) :
    (generatePassword len env).length = len.toNat := by
  unfold generatePassword
  show (List.map _ (List.range len.toNat)).length = len.toNat
  rw [List.length_map, List.length_range]

/-- C2 counterexample: the argument `0` parses as the integer `0`, but
`Number.parseInt(..) || 16` treats `0` as falsy, so the password has
length 16, not 0 as the claim requires. -/
theorem password_zero_counterexample :
    (resolveBody ("password:" ++ "0") [] schema0 env0).length = 16 ∧
    (16 : Nat) ≠ 0 := by
  constructor
  · decide
  · decide

/-- C2 (amended): `resolveHelper` on body `"password:" + s` returns a
string of length `n` when `s` parses to a positive integer `n`; of length
16 when `s` does not parse as an integer or parses to `0` (JS `||`
default); and of length 0 when `s` parses to a negative integer (the
generation loop runs zero times). -/
theorem resolveHelper_password_length (s : String) (vars : List (String × String))
    (schema : Schema) (env : Env) :
    (∀ n : Int, parseIntJS s = some n → 0 < n →
      (resolveBody ("password:" ++ s) vars schema env).length = n.toNat) ∧
    (parseIntJS s = none ∨ parseIntJS s = some 0 →
      (resolveBody ("password:" ++ s) vars schema env).length = 16) ∧
    (∀ n : Int, parseIntJS s = some n → n < 0 →
      (resolveBody ("password:" ++ s) vars schema env).length = 0) := by
  have key : (resolveBody ("password:" ++ s) vars schema env).length =
      (match parseIntJS s with
        | some k => if k = 0 then (16 : Int) else k
        | none => (16 : Int)).toNat := by
    rw [resolveBody_password, generatePassword_length, lenArg_password]
  refine ⟨?_, ?_, ?_⟩
  · intro n hn hpos
    rw [key, hn]
    simp [show n ≠ 0 by omega]
  · rintro (hn | hn) <;> rw [key, hn] <;> simp
  · intro n hn hneg
    rw [key, hn]
    have h0 : n ≠ 0 := by omega
    simp only [h0, if_false]
    omega

/-- C2 witness: the argument `7` gives a password of length 7. -/
theorem resolveHelper_password_length_witness :
    (resolveBody ("password:" ++ "7") [] schema0 env0).length = (7 : Int).toNat :=
  (resolveHelper_password_length "7" [] schema0 env0).1 7 (by decide) (by decide)

lemma objGet_pass1 (schema : Schema) (env : Env) :
    ∀ (vars : List (String × JsVal)) (k v : String),
    (vars.map Prod.fst).Nodup → (k, JsVal.jstr v) ∈ vars →
    objGet (pass1 vars schema env) k = some (pass1Val v schema env) := by
  intro vars
  induction vars with
  | nil => intro k v _ h; simp at h
  | cons p rest ih =>
    intro k v hN hmem
    obtain ⟨k0, v0⟩ := p
    simp only [List.map_cons, List.nodup_cons] at hN
    rcases List.mem_cons.mp hmem with h | h
    · have hk : k0 = k := congrArg Prod.fst h.symm
      have hv : v0 = JsVal.jstr v := congrArg Prod.snd h.symm
      subst hk
      subst hv
      simp [pass1, objGet]
    · have hk : k0 ≠ k := fun he => hN.1 (he ▸ List.mem_map_of_mem Prod.fst h)
      cases v0 <;> simp [pass1, objGet, hk, ih k v hN.2 h]

/-- C1 counterexample: pass 1 does not act on exact whole-value matches.
An entry whose value is exactly `${password}` is left untouched (only the
`${password:` prefix is recognized), while an entry whose value merely
starts with `${base64:` — not a whole-value match — is replaced
wholesale. -/
theorem pass1_exact_match_counterexample :
    pass1 [("a", JsVal.jstr "$\x7bpassword\x7d")] schema0 env0 =
      [("a", "$\x7bpassword\x7d")] ∧
    pass1 [("b", JsVal.jstr "$\x7bbase64:2\x7dtail")] schema0 env0 ≠
      [("b", "$\x7bbase64:2\x7dtail")] := by
  constructor
  · decide
  · decide

/-- C1 (amended): pass 1 of `resolveVariableMap` materializes exactly the
string entries whose value is exactly `${domain}`, exactly `${hash}`, or
starts with one of the prefixes `${base64:`, `${password:`, `${hash:`
(whether or not the whole value is one expression — such values are
replaced wholesale, their generated length taken from the first whole
`${tag:digits}` occurrence anywhere in the value, with tag defaults 32 /
16 / 8 otherwise); all other entries — including bare `${base64}` and
`${password}` — are copied unchanged and left to pass 2. -/
theorem pass1_materialization (vars : List (String × JsVal)) (schema : Schema)
    (env : Env) (k v : String) (hN : (vars.map Prod.fst).Nodup)
    (hmem : (k, JsVal.jstr v) ∈ vars) :
    (pass1Trigger v = false → objGet (pass1 vars schema env) k = some v) ∧
    (v = "$\x7bdomain\x7d" →
      objGet (pass1 vars schema env) k = some (generateRandomDomain schema env)) ∧
    (jsStartsWith v "$\x7bbase64:" = true →
      objGet (pass1 vars schema env) k =
        some (generateBase64 (pass1Len "base64" 32 v) env)) ∧
    (jsStartsWith v "$\x7bpassword:" = true →
      objGet (pass1 vars schema env) k =
        some (generatePassword (pass1Len "password" 16 v) env)) ∧
    (v = "$\x7bhash\x7d" →
      objGet (pass1 vars schema env) k = some (generateHash 8 env)) ∧
    (jsStartsWith v "$\x7bhash:" = true →
      objGet (pass1 vars schema env) k =
        some (generateHash (pass1Len "hash" 8 v) env)) := by
  have base := objGet_pass1 schema env vars k v hN hmem
  refine ⟨?_, ?_, ?_, ?_, ?_, ?_⟩
  · intro h
    unfold pass1Trigger at h
    simp only [Bool.or_eq_false_iff, decide_eq_false_iff_not, and_assoc] at h
    obtain ⟨h1, h2, h3, h4, h5⟩ := h
    rw [base]
    unfold pass1Val
    simp [h1, h2, h3, h4, h5]
  · intro h
    rw [base]
    unfold pass1Val
    simp [h]
  · intro h
    have h1 : v ≠ "$\x7bdomain\x7d" := by
      intro he
      rw [he] at h
      exact absurd h (by decide)
    rw [base]
    unfold pass1Val
    simp [h1, h]
  · intro h
    obtain ⟨t, ht⟩ := List.isPrefixOf_iff_prefix.mp h
    have h1 : v ≠ "$\x7bdomain\x7d" := by
      intro he
      rw [he] at h
      exact absurd h (by decide)
    have h2 : jsStartsWith v "$\x7bbase64:" = false := by
      unfold jsStartsWith
      rw [← ht]
      simp [List.isPrefixOf]
    rw [base]
    unfold pass1Val
    simp [h1, h2, h]
  · intro h
    subst h
    rw [base]
    unfold pass1Val
    simp [jsStartsWith, List.isPrefixOf]
  · intro h
    obtain ⟨t, ht⟩ := List.isPrefixOf_iff_prefix.mp h
    have h1 : v ≠ "$\x7bdomain\x7d" := by
      intro he
      rw [he] at h
      exact absurd h (by decide)
    have h2 : jsStartsWith v "$\x7bbase64:" = false := by
      unfold jsStartsWith
      rw [← ht]
      simp [List.isPrefixOf]
    have h3 : jsStartsWith v "$\x7bpassword:" = false := by
      unfold jsStartsWith
      rw [← ht]
      simp [List.isPrefixOf]
    have h4 : v ≠ "$\x7bhash\x7d" := by
      intro he
      rw [he] at h
      exact absurd h (by decide)
    rw [base]
    unfold pass1Val
    simp [h1, h2, h3, h4, h]

/-- C1 witness: a two-entry map — `${domain}` is materialized, a plain
value is copied. -/
theorem pass1_materialization_witness :
    objGet (pass1 [("a", JsVal.jstr "$\x7bdomain\x7d"), ("b", JsVal.jstr "plain")]
      schema0 env0) "a" = some (generateRandomDomain schema0 env0) :=
  (pass1_materialization [("a", JsVal.jstr "$\x7bdomain\x7d"), ("b", JsVal.jstr "plain")]
    schema0 env0 "a" "$\x7bdomain\x7d" (by decide) (by decide)).2.1 rfl

lemma generatePassword_nobrace (len : Int) (env : Env) :
    '\x7b' ∉ (generatePassword len env).data := by
  unfold generatePassword
  show '\x7b' ∉ List.map _ (List.range len.toNat)
  intro hmem
  simp only [List.mem_map] at hmem
  obtain ⟨i, _, hi⟩ := hmem
  have hlt := env.randBelow_lt i passwordCharset.data.length (by decide)
  have hmem2 : passwordCharset.data.getD (env.randBelow i passwordCharset.data.length)
      'a' ∈ passwordCharset.data := by
    rw [List.getD_eq_getElem _ _ hlt]
    exact List.getElem_mem hlt
  rw [hi] at hmem2
  exact absurd hmem2 (by decide)

lemma pass1Trigger_of_nobrace {v : String} (h : '\x7b' ∉ v.data) :
    pass1Trigger v = false := by
  have hsw : ∀ p : String, '\x7b' ∈ p.data → jsStartsWith v p = false := by
    intro p hp
    cases hb : jsStartsWith v p
    · rfl
    · exact absurd ((List.isPrefixOf_iff_prefix.mp hb).subset hp) h
  have h1 : v ≠ "$\x7bdomain\x7d" := by
    intro he
    rw [he] at h
    exact h (by decide)
  have h4 : v ≠ "$\x7bhash\x7d" := by
    intro he
    rw [he] at h
    exact h (by decide)
  unfold pass1Trigger
  simp [h1, h4, hsw "$\x7bbase64:" (by decide), hsw "$\x7bpassword:" (by decide),
    hsw "$\x7bhash:" (by decide)]

lemma pass1Val_id {v : String} (schema : Schema) (env : Env)
    (h : pass1Trigger v = false) : pass1Val v schema env = v := by
  unfold pass1Trigger at h
  simp only [Bool.or_eq_false_iff, decide_eq_false_iff_not, and_assoc] at h
  obtain ⟨h1, h2, h3, h4, h5⟩ := h
  unfold pass1Val
  simp [h1, h2, h3, h4, h5]

/-- Every value produced by pass 1 from an expression-free map is inert:
expression-free and not a pass-1 trigger (the exact-match triggers
`${domain}` / `${hash}` contain expressions, so only the prefix triggers
can fire, and the hex / base64 / password-charset generator outputs
contain no brace). -/
lemma pass1_values (schema : Schema) (env : Env) : ∀ vars : List (String × JsVal),
    (∀ p : String × JsVal, p ∈ vars → ∀ s : String, p.2 = JsVal.jstr s →
      hasExpr s = false) →
    ∀ q : String × String, q ∈ pass1 vars schema env →
      hasExpr q.2 = false ∧ pass1Trigger q.2 = false := by
  intro vars
  induction vars with
  | nil => intro _ q hq; simp [pass1] at hq
  | cons p rest ih =>
    intro hv q hq
    obtain ⟨k, v0⟩ := p
    have hrest := ih (fun p hp s hsx => hv p (List.mem_cons_of_mem _ hp) s hsx)
    cases v0 with
    | jstr s =>
      simp only [pass1] at hq
      rcases List.mem_cons.mp hq with h | h
      · subst h
        have hs : hasExpr s = false := hv (k, JsVal.jstr s) (List.mem_cons_self _ _) s rfl
        show hasExpr (pass1Val s schema env) = false ∧
          pass1Trigger (pass1Val s schema env) = false
        unfold pass1Val
        by_cases h1 : s = "$\x7bdomain\x7d"
        · rw [h1] at hs
          exact absurd hs (by decide)
        · by_cases h2 : jsStartsWith s "$\x7bbase64:" = true
          · simp only [h1, if_false, h2, if_true]
            have hb := env.randomBase64_nobrace (pass1Len "base64" 32 s)
            exact ⟨hasExpr_of_nobrace hb, pass1Trigger_of_nobrace hb⟩
          · by_cases h3 : jsStartsWith s "$\x7bpassword:" = true
            · simp only [h1, if_false, h2, h3, if_true]
              have hb := generatePassword_nobrace (pass1Len "password" 16 s) env
              exact ⟨hasExpr_of_nobrace hb, pass1Trigger_of_nobrace hb⟩
            · by_cases h4 : s = "$\x7bhash\x7d"
              · rw [h4] at hs
                exact absurd hs (by decide)
              · by_cases h5 : jsStartsWith s "$\x7bhash:" = true
                · simp only [h1, h2, h3, h4, h5, if_false, if_true]
                  have hb := env.randomHex_nobrace (pass1Len "hash" 8 s)
                  exact ⟨hasExpr_of_nobrace hb, pass1Trigger_of_nobrace hb⟩
                · simp only [h1, h2, h3, h4, h5, if_false]
                  refine ⟨hs, ?_⟩
                  unfold pass1Trigger
                  simp [h1, h2, h3, h4, h5]
      · exact hrest q h
    | jnum n => exact hrest q (by simpa [pass1] using hq)
    | jbool b => exact hrest q (by simpa [pass1] using hq)
    | jnull => exact hrest q (by simpa [pass1] using hq)
    | jother => exact hrest q (by simpa [pass1] using hq)

lemma pass2_id (schema : Schema) (env : Env) : ∀ entries m : List (String × String),
    (m.map Prod.fst).Nodup → (∀ p ∈ entries, p ∈ m) →
    (∀ p : String × String, p ∈ entries → hasExpr p.2 = false) →
    pass2 schema env entries m = m := by
  intro entries
  induction entries with
  | nil => intro m _ _ _; rfl
  | cons p rest ih =>
    intro m hN hsub hval
    obtain ⟨k, v⟩ := p
    have hv : hasExpr v = false := hval (k, v) (List.mem_cons_self _ _)
    have hm : (k, v) ∈ m := hsub _ (List.mem_cons_self _ _)
    simp only [pass2]
    rw [processValue_id _ _ _ hv, objSet_self m k v hN hm]
    exact ih m hN (fun q hq => hsub q (List.mem_cons_of_mem _ hq))
      (fun q hq => hval q (List.mem_cons_of_mem _ hq))

lemma pass1_id (schema : Schema) (env : Env) : ∀ m : List (String × String),
    (∀ p : String × String, p ∈ m → pass1Trigger p.2 = false) →
    pass1 (jstrMap m) schema env = m := by
  intro m
  induction m with
  | nil => intro _; rfl
  | cons p rest ih =>
    intro h
    obtain ⟨k, v⟩ := p
    show (k, pass1Val v schema env) :: pass1 (jstrMap rest) schema env = (k, v) :: rest
    rw [pass1Val_id _ _ (h (k, v) (List.mem_cons_self _ _)),
      ih (fun q hq => h q (List.mem_cons_of_mem _ hq))]

lemma pass1_jstr_keys (schema : Schema) (env : Env) (m : List (String × String)) :
    (pass1 (jstrMap m) schema env).map Prod.fst = m.map Prod.fst := by
  rw [pass1_keys]
  unfold jstrMap
  rw [List.filter_map]
  have : (List.filter ((fun p => p.2.isStr) ∘ fun p => (p.1, JsVal.jstr p.2)) m) = m :=
    List.filter_eq_self.mpr (fun a _ => rfl)
  rw [this, List.map_map]
  rfl

/-- C6: `resolveVariableMap` is idempotent on already-fully-resolved
maps: when no value contains a complete `${...}` expression, the first
run either copies values unchanged (pass 2 finds nothing to replace) or —
for values that merely start with `${base64:` / `${password:` /
`${hash:` without a closing brace — replaces them with brace-free
generator output, and a second run leaves that fixed point untouched. -/
theorem resolveVariableMap_idempotent (m : List (String × String)) (schema : Schema)
    (env : Env) (hN : (m.map Prod.fst).Nodup)
    (hres : ∀ p : String × String, p ∈ m → hasExpr p.2 = false) :
    processVariables (jstrMap (processVariables (jstrMap m) schema env)) schema env =
      processVariables (jstrMap m) schema env := by
  have hvals : ∀ p : String × JsVal, p ∈ jstrMap m → ∀ s : String,
      p.2 = JsVal.jstr s → hasExpr s = false := by
    intro p hp s hs
    unfold jstrMap at hp
    simp only [List.mem_map] at hp
    obtain ⟨q, hq, hpq⟩ := hp
    have : JsVal.jstr q.2 = JsVal.jstr s := by rw [← hs, ← hpq]
    cases this
    exact hres q hq
  have hkeys := pass1_jstr_keys schema env m
  have hN1 : ((pass1 (jstrMap m) schema env).map Prod.fst).Nodup := by
    rw [hkeys]
    exact hN
  have hInert := pass1_values schema env (jstrMap m) hvals
  have hP : processVariables (jstrMap m) schema env = pass1 (jstrMap m) schema env := by
    show pass2 schema env _ _ = _
    exact pass2_id schema env _ _ hN1 (fun q hq => hq) (fun q hq => (hInert q hq).1)
  rw [hP]
  have hq1 : pass1 (jstrMap (pass1 (jstrMap m) schema env)) schema env =
      pass1 (jstrMap m) schema env :=
    pass1_id schema env _ (fun q hq => (hInert q hq).2)
  show pass2 schema env _ _ = _
  rw [hq1]
  exact pass2_id schema env _ _ hN1 (fun q hq => hq) (fun q hq => (hInert q hq).1)

/-- C6 witness: a concrete fully-resolved two-entry map. -/
theorem resolveVariableMap_idempotent_witness :
    processVariables (jstrMap (processVariables
      (jstrMap [("a", "hello"), ("b", "world")]) schema0 env0)) schema0 env0 =
      processVariables (jstrMap [("a", "hello"), ("b", "world")]) schema0 env0 :=
  resolveVariableMap_idempotent [("a", "hello"), ("b", "world")] schema0 env0
    (by decide) (by decide)

/-- Every early-`return false` path of `validateTemplate` pushes an error
first. -/
lemma validateTemplateData_early_errors (env : Env) (toml : TomlOutcome)
    (path : String) (S : List String) :
    (validateTemplateData env toml path S).1 = true →
    (validateTemplateData env toml path S).2.1 ≠ [] := by
  intro h
  cases toml with
  | missing => simp [validateTemplateData]
  | parseErr m => simp [validateTemplateData]
  | ok data =>
    cases hc : data.config with
    | none => simp [validateTemplateData, hc]
    | some cfg =>
      cases hd : cfg.domains with
      | none => simp [validateTemplateData, hc, hd] at h
      | some df =>
        cases df with
        | notArr => simp [validateTemplateData, hc, hd]
        | arr ds => simp [validateTemplateData, hc, hd] at h

/-- C8: for both validators, the returned report satisfies `valid = true`
iff its `errors` sequence is empty; `warnings` never enter the `valid`
computation.  For the template validator this includes the early-return
paths (each pushes an error before returning `false`) and the fact that
`validateTemplate`'s boolean is conjoined with the emptiness of the
shared error list. -/
theorem validationReport_valid_iff (composePath? : Option String)
    (o : ComposeOutcome) (env : Env) (dir : String) (co : ComposeOutcome)
    (tomlO : TomlOutcome) :
    ((validateCompose composePath? o).valid = true ↔
      (validateCompose composePath? o).errors = []) ∧
    ((validateTemplateDir env dir co tomlO).valid = true ↔
      (validateTemplateDir env dir co tomlO).errors = []) := by
  constructor
  · cases composePath? with
    | none => simp [validateCompose]
    | some path =>
      cases o with
      | missing => simp [validateCompose]
      | invalid => simp [validateCompose]
      | threw m => simp [validateCompose]
      | ok compose =>
        simp only [validateCompose]
        split
        · simp
        · simp [List.isEmpty_iff]
  · unfold validateTemplateDir
    rcases hpc : parseComposeServices co (dir ++ "/docker-compose.yml") with
      ⟨S, cErrs, cWarns⟩
    rcases hvd : validateTemplateData env tomlO (dir ++ "/template.toml") S with
      ⟨early, tErrs, tWarns⟩
    have hET : early = true → tErrs ≠ [] := by
      intro he
      have hh := validateTemplateData_early_errors env tomlO (dir ++ "/template.toml") S
      rw [hvd] at hh
      exact hh he
    simp only [hpc, hvd]
    constructor
    · intro h
      simp only [Bool.and_eq_true, List.isEmpty_iff] at h
      exact h.2
    · intro h
      have hce : cErrs = [] := (List.append_eq_nil.mp h).1
      have hte : tErrs = [] := (List.append_eq_nil.mp h).2
      cases hearly : early with
      | true => exact absurd hte (hET hearly)
      | false => simp [h, hce, hte]

lemma domainsChecks_mem (env : Env) (S : List String) : ∀ (ds : List DomainConfig)
    (start i : Nat) (d : DomainConfig), ds.get? i = some d →
    ∀ e ∈ (domainChecksAt env S (start + i) d).1, e ∈ (domainsChecks env S start ds).1 := by
  intro ds
  induction ds with
  | nil => intro start i d h; simp at h
  | cons d0 rest ih =>
    intro start i d h e he
    cases i with
    | zero =>
      injection h with h
      subst h
      simp only [domainsChecks]
      apply List.mem_append_left
      simpa using he
    | succ j =>
      have h' : rest.get? j = some d := h
      simp only [domainsChecks]
      apply List.mem_append_right
      apply ih (start + 1) j d h' e
      rw [show start + 1 + j = start + (j + 1) by omega]
      exact he

/-- A `serviceName not found` message in the checks of one domain entry
pins down the index, the declared serviceName and its absence from the
service list. -/
lemma domainChecksAt_notfound {env : Env} {S : List String} {i : Nat}
    {d : DomainConfig} {j : Nat} {n : String} {a : List String}
    (h : VMsg.domainServiceNotFound j n a ∈ (domainChecksAt env S i d).1) :
    j = i ∧ d.serviceName = some n ∧ S.contains n = false := by
  unfold domainChecksAt at h
  rcases hsn : d.serviceName with _ | name0 <;> rcases hp : d.port with _ | pv <;>
    simp only [hsn, hp] at h <;> first
    | (split_ifs at h <;> simp_all)
    | simp_all

lemma domainsChecks_notfound_inv (env : Env) (S : List String) :
    ∀ (ds : List DomainConfig) (start j : Nat) (n : String) (a : List String),
    VMsg.domainServiceNotFound j n a ∈ (domainsChecks env S start ds).1 →
    ∃ p dp, ds.get? p = some dp ∧ start + p = j ∧ dp.serviceName = some n ∧
      S.contains n = false := by
  intro ds
  induction ds with
  | nil => intro start j n a h; simp [domainsChecks] at h
  | cons d0 rest ih =>
    intro start j n a h
    simp only [domainsChecks] at h
    rcases List.mem_append.mp h with h | h
    · obtain ⟨hj, hsn, hcont⟩ := domainChecksAt_notfound h
      exact ⟨0, d0, rfl, by omega, hsn, hcont⟩
    · obtain ⟨p, dp, h1, h2, h3, h4⟩ := ih (start + 1) j n a h
      exact ⟨p + 1, dp, h1, by omega, h3, h4⟩

lemma notfound_not_envChecksFrom (j : Nat) (n : String) (a : List String) :
    ∀ (k : Nat) (es : List EnvEntry),
    VMsg.domainServiceNotFound j n a ∉ (envChecksFrom k es).1 := by
  intro k es
  induction es generalizing k with
  | nil => simp [envChecksFrom]
  | cons e rest ih =>
    simp only [envChecksFrom, List.mem_append]
    rintro (h | h)
    · cases e <;> simp [envEntryCheck] at h
    · exact ih (k + 1) h

lemma notfound_not_envChecks (j : Nat) (n : String) (a : List String) :
    ∀ ef : Option EnvField,
    VMsg.domainServiceNotFound j n a ∉ (envChecks ef).1 := by
  intro ef
  match ef with
  | none => simp [envChecks]
  | some (.envArr es) => simpa [envChecks] using notfound_not_envChecksFrom j n a 0 es
  | some (.envObj pairs) => simp [envChecks]
  | some .envOther => simp [envChecks]

lemma notfound_not_mountCheckAt (j : Nat) (n : String) (a : List String)
    (i : Nat) (m : MountConfig) :
    VMsg.domainServiceNotFound j n a ∉ mountCheckAt i m := by
  unfold mountCheckAt
  rcases hfp : m.filePath with _ | v <;> rcases hc : m.content with _ | w <;>
    simp only [hfp, hc] <;> first
    | (split_ifs <;> simp)
    | simp

lemma notfound_not_mountsChecks (j : Nat) (n : String) (a : List String) :
    ∀ mf : Option MountsField,
    VMsg.domainServiceNotFound j n a ∉ mountsChecks mf := by
  intro mf
  match mf with
  | none => simp [mountsChecks]
  | some .notArr => simp [mountsChecks]
  | some (.arr ms) =>
    show VMsg.domainServiceNotFound j n a ∉ mountsChecksFrom 0 ms
    generalize 0 = k
    induction ms generalizing k with
    | nil => simp [mountsChecksFrom]
    | cons m rest ih =>
      simp only [mountsChecksFrom, List.mem_append]
      rintro (h | h)
      · exact notfound_not_mountCheckAt j n a k m h
      · exact ih (k + 1) h

lemma notfound_not_varKeyErrs (j : Nat) (n : String) (a : List String)
    (pairs : List (String × JsVal)) :
    VMsg.domainServiceNotFound j n a ∉ varKeyErrs pairs := by
  unfold varKeyErrs
  intro h
  rcases List.mem_filterMap.mp h with ⟨p, _, hp⟩
  obtain ⟨key, val⟩ := p
  cases val <;> simp at hp

lemma notfound_not_varsChecks (j : Nat) (n : String) (a : List String)
    (env : Env) (vf : Option VariablesField) (ds? : Option (List DomainConfig))
    (ef : Option EnvField) (mf : Option MountsField) :
    VMsg.domainServiceNotFound j n a ∉ (varsChecks env vf ds? ef mf).1 := by
  match vf with
  | none => simp [varsChecks]
  | some .notObj => simp [varsChecks]
  | some (.obj pairs) =>
    unfold varsChecks
    match mf with
    | some .notArr =>
      simp only [List.mem_append]
      rintro (h | h)
      · exact notfound_not_varKeyErrs j n a pairs h
      · simp at h
    | some (.arr ms) => exact notfound_not_varKeyErrs j n a pairs
    | none => exact notfound_not_varKeyErrs j n a pairs

/-- The error list of a `validateTemplateDir` run whose manifest parsed
with services and whose descriptor has a `[config]` section with an array
of domains: the four check groups in program order. -/
lemma validateTemplateDir_ok_errors (env : Env) (dir : String) (spec : ComposeSpec)
    (svcs : List (String × ComposeService)) (data : TemplateData) (cfg : ConfigData)
    (ds : List DomainConfig) (hsv : spec.services = some svcs)
    (hc : data.config = some cfg) (hd : cfg.domains = some (DomainsField.arr ds)) :
    (validateTemplateDir env dir (.ok spec) (.ok data)).errors =
      (domainsChecks env (svcs.map Prod.fst) 0 ds).1 ++
      ((envChecks cfg.env).1 ++ (mountsChecks cfg.mounts ++
        (varsChecks env data.variablesField (some ds) cfg.env cfg.mounts).1)) := by
  unfold validateTemplateDir parseComposeServices
  simp [validateTemplateData, hsv, hc, hd]

/-- C5 (amended): when the manifest parses to a non-empty service set, a
domain declaration whose (non-empty) `serviceName` is absent from that
set yields the `serviceName ... not found` error — whose message text
contains the serviceName — and when the serviceName is present in the
set, that specific error message is not produced by any check. -/
theorem domain_serviceName_check (env : Env) (dir : String) (spec : ComposeSpec)
    (svcs : List (String × ComposeService)) (data : TemplateData) (cfg : ConfigData)
    (ds : List DomainConfig) (i : Nat) (d : DomainConfig) (name : String)
    (hsv : spec.services = some svcs) (hsne : svcs ≠ [])
    (hc : data.config = some cfg) (hd : cfg.domains = some (DomainsField.arr ds))
    (hdi : ds.get? i = some d) (hn : d.serviceName = some name) (hne : name ≠ "") :
    (name ∉ svcs.map Prod.fst →
      VMsg.domainServiceNotFound i name (svcs.map Prod.fst) ∈
        (validateTemplateDir env dir (.ok spec) (.ok data)).errors ∧
      ∃ p q : String,
        render (VMsg.domainServiceNotFound i name (svcs.map Prod.fst)) =
          p ++ name ++ q) ∧
    (name ∈ svcs.map Prod.fst →
      VMsg.domainServiceNotFound i name (svcs.map Prod.fst) ∉
        (validateTemplateDir env dir (.ok spec) (.ok data)).errors) := by
  have hchar := validateTemplateDir_ok_errors env dir spec svcs data cfg ds hsv hc hd
  constructor
  · intro hnot
    refine ⟨?_, ?_⟩
    · rw [hchar]
      apply List.mem_append_left
      apply domainsChecks_mem env (svcs.map Prod.fst) ds 0 i d hdi
      rw [show (0 : Nat) + i = i by omega]
      unfold domainChecksAt
      have hlen : 0 < (svcs.map Prod.fst).length := by simp [List.length_pos, hsne]
      simp [hn, hne]
      right
      exact ⟨by simpa using hlen, fun x hx => hnot (List.mem_map_of_mem Prod.fst hx)⟩
    · refine ⟨"domain[" ++ toString i ++ "]: serviceName \x27",
        "\x27 not found in docker-compose.yml services. Available services: " ++
          String.intercalate ", " (svcs.map Prod.fst), ?_⟩
      unfold render
      simp [String.append_assoc]
  · intro hin htarget
    rw [hchar] at htarget
    rcases List.mem_append.mp htarget with h | h
    · obtain ⟨p, dp, _, _, _, hcont⟩ :=
        domainsChecks_notfound_inv env (svcs.map Prod.fst) ds 0 i name
          (svcs.map Prod.fst) h
      have : name ∉ svcs.map Prod.fst := by simpa using hcont
      exact this hin
    · rcases List.mem_append.mp h with h | h
      · exact notfound_not_envChecks i name (svcs.map Prod.fst) cfg.env h
      · rcases List.mem_append.mp h with h | h
        · exact notfound_not_mountsChecks i name (svcs.map Prod.fst) cfg.mounts h
        · exact notfound_not_varsChecks i name (svcs.map Prod.fst) env
            data.variablesField (some ds) cfg.env cfg.mounts h

/-- C5 witness: serviceName `worker` against a manifest declaring only
`web` produces the not-found error naming `worker`. -/
theorem domain_serviceName_check_witness :
    VMsg.domainServiceNotFound 0 "worker"
        ([("web", ComposeService.mk (some "x") none none none)].map Prod.fst) ∈
      (validateTemplateDir env0 "bp"
        (.ok (ComposeSpec.mk (some [("web", ComposeService.mk (some "x") none none none)]) none))
        (.ok (TemplateData.mk none (some (ConfigData.mk
          (some (DomainsField.arr [DomainConfig.mk (some "worker")
            (some (PortV.pnum 3000)) (some "$\x7bmain_domain\x7d") none]))
          none none))))).errors :=
  ((domain_serviceName_check env0 "bp"
    (ComposeSpec.mk (some [("web", ComposeService.mk (some "x") none none none)]) none)
    [("web", ComposeService.mk (some "x") none none none)]
    (TemplateData.mk none (some (ConfigData.mk
      (some (DomainsField.arr [DomainConfig.mk (some "worker")
        (some (PortV.pnum 3000)) (some "$\x7bmain_domain\x7d") none]))
      none none)))
    (ConfigData.mk (some (DomainsField.arr [DomainConfig.mk (some "worker")
      (some (PortV.pnum 3000)) (some "$\x7bmain_domain\x7d") none])) none none)
    [DomainConfig.mk (some "worker") (some (PortV.pnum 3000))
      (some "$\x7bmain_domain\x7d") none]
    0 (DomainConfig.mk (some "worker") (some (PortV.pnum 3000))
      (some "$\x7bmain_domain\x7d") none) "worker"
    rfl (by simp) rfl rfl rfl rfl (by decide)).1 (by decide)).1

/-- C5 counterexample: with a manifest whose service set is empty, the
serviceName check is skipped entirely (`composeServices.length > 0`
guard), so a domain declaration naming the absent service `web` yields no
error at all — the claim's unconditional "at least one error" fails. -/
theorem domain_serviceName_check_counterexample :
    (validateTemplateDir env0 "bp" (.ok (ComposeSpec.mk (some []) none))
      (.ok (TemplateData.mk none (some (ConfigData.mk
        (some (DomainsField.arr [DomainConfig.mk (some "web")
          (some (PortV.pnum 80)) (some "$\x7bmain_domain\x7d") none]))
        none none))))).errors = [] := by
  decide

/-- C3: the `jwt:secret:payload` form never uses the referenced JSON
payload.  At a non-legacy call whose second parameter names a variable
holding a JSON object literal, the emitted token's middle segment is the
base64url encoding of `JSON.stringify(\x7b\x7d)` — not of the parsed
object — because the `typeof payload !== "object"` test of helpers.ts
lines 163-167 unconditionally discards the `JSON.parse` result computed
on lines 150-162 (`payload` there is a string, never an object). -/
theorem jwt_payload_discarded :
    resolveBody "jwt:mysecret:cfg" [("cfg", "\x7b\"role\":\"admin\"\x7d")]
        schema0 env0 =
      jwtHeader ++ "." ++ b64urlStr "\x7b\x7d" ++ "." ++
        jsTake 32 (b64urlStr "mysecret") ∧
    b64urlStr "\x7b\x7d" ≠ b64urlStr "\x7b\"role\":\"admin\"\x7d" := by
  constructor
  · decide
  · decide

end Templates
